import Mathlib

set_option maxHeartbeats 1000000

/- Verification development for the QuickBooks Online extraction,
flattening and filtering pipeline of this repository
(qbo_api_wahssales_PROD.py, WAHS API Connection/main.py,
qbo_api_test.py, qbo_api_salesreceipts_sandbox.py).

Python scalar and JSON values are modelled by the inductive type Py;
pandas DataFrames by a column-name list plus association-list rows.
Strings are modelled as lists of characters. -/

abbrev PyStr := List Char

/-- Shorthand turning a Lean string literal into the character-list model. -/
def S (s : String) : PyStr := s.toList

/-- Python/JSON values as used by the pipeline.  Numbers are modelled as
integers (the claims only depend on whether a numeric coercion succeeds,
never on decimal arithmetic).  `date` is the result of a successful
`pd.to_datetime(..).dt.date`. -/
inductive Py where
  | none : Py
  | str : PyStr → Py
  | num : Int → Py
  | date : Nat → Nat → Nat → Py
  | dict : List (PyStr × Py) → Py
  | list : List Py → Py

mutual

/-- Boolean equality on modelled Python values. -/
def Py.beq : Py → Py → Bool
  | .none, .none => true
  | .str a, .str b => a == b
  | .num a, .num b => a == b
  | .date y m d, .date y2 m2 d2 => y == y2 && m == m2 && d == d2
  | .dict a, .dict b => Py.beqKV a b
  | .list a, .list b => Py.beqL a b
  | _, _ => false

/-- Boolean equality on lists of modelled Python values. -/
def Py.beqL : List Py → List Py → Bool
  | [], [] => true
  | a :: l1, b :: l2 => Py.beq a b && Py.beqL l1 l2
  | _, _ => false

/-- Boolean equality on dict entry lists. -/
def Py.beqKV : List (PyStr × Py) → List (PyStr × Py) → Bool
  | [], [] => true
  | a :: l1, b :: l2 => (a.1 == b.1 && Py.beq a.2 b.2) && Py.beqKV l1 l2
  | _, _ => false

end

mutual

def Py.eq_of_beq : ∀ (a b : Py), Py.beq a b = true → a = b
  | .none, .none, _ => rfl
  | .str x, .str y, h => by simp only [Py.beq, beq_iff_eq] at h; rw [h]
  | .num x, .num y, h => by simp only [Py.beq, beq_iff_eq] at h; rw [h]
  | .date x y z, .date u v w, h => by
      simp only [Py.beq, Bool.and_eq_true, beq_iff_eq] at h
      obtain ⟨⟨h1, h2⟩, h3⟩ := h
      rw [h1, h2, h3]
  | .dict x, .dict y, h => by
      simp only [Py.beq] at h
      rw [Py.eqKV_of_beqKV x y h]
  | .list x, .list y, h => by
      simp only [Py.beq] at h
      rw [Py.eqL_of_beqL x y h]
  | .none, .str _, h => by simp [Py.beq] at h
  | .none, .num _, h => by simp [Py.beq] at h
  | .none, .date _ _ _, h => by simp [Py.beq] at h
  | .none, .dict _, h => by simp [Py.beq] at h
  | .none, .list _, h => by simp [Py.beq] at h
  | .str _, .none, h => by simp [Py.beq] at h
  | .str _, .num _, h => by simp [Py.beq] at h
  | .str _, .date _ _ _, h => by simp [Py.beq] at h
  | .str _, .dict _, h => by simp [Py.beq] at h
  | .str _, .list _, h => by simp [Py.beq] at h
  | .num _, .none, h => by simp [Py.beq] at h
  | .num _, .str _, h => by simp [Py.beq] at h
  | .num _, .date _ _ _, h => by simp [Py.beq] at h
  | .num _, .dict _, h => by simp [Py.beq] at h
  | .num _, .list _, h => by simp [Py.beq] at h
  | .date _ _ _, .none, h => by simp [Py.beq] at h
  | .date _ _ _, .str _, h => by simp [Py.beq] at h
  | .date _ _ _, .num _, h => by simp [Py.beq] at h
  | .date _ _ _, .dict _, h => by simp [Py.beq] at h
  | .date _ _ _, .list _, h => by simp [Py.beq] at h
  | .dict _, .none, h => by simp [Py.beq] at h
  | .dict _, .str _, h => by simp [Py.beq] at h
  | .dict _, .num _, h => by simp [Py.beq] at h
  | .dict _, .date _ _ _, h => by simp [Py.beq] at h
  | .dict _, .list _, h => by simp [Py.beq] at h
  | .list _, .none, h => by simp [Py.beq] at h
  | .list _, .str _, h => by simp [Py.beq] at h
  | .list _, .num _, h => by simp [Py.beq] at h
  | .list _, .date _ _ _, h => by simp [Py.beq] at h
  | .list _, .dict _, h => by simp [Py.beq] at h

def Py.eqL_of_beqL : ∀ (a b : List Py), Py.beqL a b = true → a = b
  | [], [], _ => rfl
  | [], _ :: _, h => by simp [Py.beqL] at h
  | _ :: _, [], h => by simp [Py.beqL] at h
  | a :: l1, b :: l2, h => by
      simp only [Py.beqL, Bool.and_eq_true] at h
      rw [Py.eq_of_beq a b h.1, Py.eqL_of_beqL l1 l2 h.2]

def Py.eqKV_of_beqKV : ∀ (a b : List (PyStr × Py)), Py.beqKV a b = true → a = b
  | [], [], _ => rfl
  | [], _ :: _, h => by simp [Py.beqKV] at h
  | _ :: _, [], h => by simp [Py.beqKV] at h
  | a :: l1, b :: l2, h => by
      simp only [Py.beqKV, Bool.and_eq_true, beq_iff_eq] at h
      obtain ⟨⟨h1, h2⟩, h3⟩ := h
      have hab : a = b := Prod.ext h1 (Py.eq_of_beq a.2 b.2 h2)
      rw [hab, Py.eqKV_of_beqKV l1 l2 h3]

end

mutual

def Py.beq_refl : ∀ (a : Py), Py.beq a a = true
  | .none => by simp [Py.beq]
  | .str s => by simp [Py.beq]
  | .num n => by simp [Py.beq]
  | .date y m d => by simp [Py.beq]
  | .dict kvs => by simp only [Py.beq]; exact Py.beqKV_refl kvs
  | .list xs => by simp only [Py.beq]; exact Py.beqL_refl xs

def Py.beqL_refl : ∀ (l : List Py), Py.beqL l l = true
  | [] => rfl
  | a :: l => by
      simp only [Py.beqL, Bool.and_eq_true]
      exact ⟨Py.beq_refl a, Py.beqL_refl l⟩

def Py.beqKV_refl : ∀ (l : List (PyStr × Py)), Py.beqKV l l = true
  | [] => rfl
  | a :: l => by
      simp only [Py.beqKV, Bool.and_eq_true, beq_self_eq_true]
      exact ⟨⟨trivial, Py.beq_refl a.2⟩, Py.beqKV_refl l⟩

end

instance : DecidableEq Py := fun a b =>
  decidable_of_iff (Py.beq a b = true)
    ⟨Py.eq_of_beq a b, fun h => h ▸ Py.beq_refl a⟩

/-- Python `d.get(k)` (and `d.get(k, default-empty-dict) chained with .get`):
first binding of the key in a dict, null for a missing key or a non-dict
receiver. -/
def Py.get (v : Py) (k : PyStr) : Py :=
  match v with
  | .dict kvs => (((kvs.find? (fun kv => kv.1 == k)).map (fun kv => kv.2)).getD .none)
  | _ => .none

/-- Python truthiness for the modelled values. -/
def Py.truthy : Py → Bool
  | .none => false
  | .str s => !s.isEmpty
  | .num n => n != 0
  | .date _ _ _ => true
  | .dict kvs => !kvs.isEmpty
  | .list xs => !xs.isEmpty

/-- Two-digit zero padding, as in the ISO rendering of a Python date. -/
def pad2 (n : Nat) : String := if n < 10 then "0" ++ toString n else toString n

/-- ISO rendering of a date value. -/
def isoOfDate (y m d : Nat) : PyStr := (toString y ++ "-" ++ pad2 m ++ "-" ++ pad2 d).toList

/-- Python `str()` restricted to the scalar values the pipeline exercises;
container reprs are modelled by fixed placeholder strings, which no
theorem below ever reaches. -/
def pyStrConv : Py → PyStr
  | .none => S "None"
  | .str s => s
  | .num n => (toString n).toList
  | .date y m d => isoOfDate y m d
  | .dict _ => S "<dict>"
  | .list _ => S "<list>"

/-- The whitespace characters recognised by Python `str.split()` and
`str.strip()`. -/
def isPyWs (c : Char) : Bool :=
  c == ' ' || c == '\t' || c == '\n' || c == '\x0d' || c == Char.ofNat 11 || c == Char.ofNat 12

/-- Python `str.strip()`: drop leading and trailing whitespace. -/
def pyStrip (s : PyStr) : PyStr :=
  ((s.dropWhile isPyWs).reverse.dropWhile isPyWs).reverse

/-- Worker for `str.split()`: accumulates the current word reversed. -/
def pySplitAux : List Char → List Char → List PyStr
  | [], acc => if acc.isEmpty then [] else [acc.reverse]
  | c :: cs, acc =>
    if isPyWs c then
      if acc.isEmpty then pySplitAux cs [] else acc.reverse :: pySplitAux cs []
    else pySplitAux cs (c :: acc)

/-- Python `str.split()` with no argument: maximal runs of non-whitespace. -/
def pySplit (s : PyStr) : List PyStr := pySplitAux s []

/-- Python `sep.join(words)` with a single-space separator. -/
def pyJoin : List PyStr → PyStr
  | [] => []
  | [w] => w
  | w :: ws => w ++ ' ' :: pyJoin ws

/-- Python `str.lower()` on one character (ASCII letters, as exercised by
the pipeline targets). -/
def lowChar (c : Char) : Char :=
  if 65 ≤ c.toNat ∧ c.toNat ≤ 90 then Char.ofNat (c.toNat + 32) else c

/-- Python `str.lower()`. -/
def lowStr (s : PyStr) : PyStr := s.map lowChar

/-- The normalization expression used identically across the pipeline
variants: replace every whitespace run by a single space, trim, and
lowercase. -/
def pyNormalize (s : PyStr) : PyStr := lowStr (pyJoin (pySplit s))

/-- Model of `pd.to_datetime(x, errors=coerce).dt.date` on the ISO
`YYYY-MM-DD` strings the accounting API returns for TxnDate: a
well-formed ISO date becomes a date value, any other value coerces to
null, never an error. -/
def toDatetimeCoerce (v : Py) : Py :=
  match v with
  | .str [y1, y2, y3, y4, h1, m1, m2, h2, d1, d2] =>
    if y1.isDigit ∧ y2.isDigit ∧ y3.isDigit ∧ y4.isDigit ∧ h1 = '-' ∧ h2 = '-' ∧
       m1.isDigit ∧ m2.isDigit ∧ d1.isDigit ∧ d2.isDigit then
      let y := ((y1.toNat - 48) * 10 + (y2.toNat - 48)) * 100 +
               ((y3.toNat - 48) * 10 + (y4.toNat - 48))
      let m := (m1.toNat - 48) * 10 + (m2.toNat - 48)
      let d := (d1.toNat - 48) * 10 + (d2.toNat - 48)
      if 1 ≤ m ∧ m ≤ 12 ∧ 1 ≤ d ∧ d ≤ 31 then .date y m d else .none
    else .none
  | _ => .none

/-- Digit-string parser used by the numeric coercion model. -/
def digitsToNat (s : List Char) : Option Nat :=
  if !s.isEmpty ∧ s.all Char.isDigit then
    some (s.foldl (fun a c => a * 10 + (c.toNat - 48)) 0)
  else none

/-- Model of `pd.to_numeric(x, errors=coerce)`: numbers pass through,
integer-format strings parse, any other value becomes null, never an
error. -/
def toNumericCoerce (v : Py) : Py :=
  match v with
  | .num n => .num n
  | .str s =>
    match s with
    | '-' :: rest => ((digitsToNat rest).map (fun n => Py.num (-(n : Int)))).getD .none
    | _ => ((digitsToNat s).map (fun n => Py.num (n : Int))).getD .none
  | _ => .none

/-- A pandas DataFrame: the ordered list of column names plus one
association-list row per record, kept in sync with the column list. -/
structure DataFrame where
  cols : List PyStr
  rows : List (List (PyStr × Py))
deriving DecidableEq

/-- Value of one column in one row: the first binding of the name, null
when absent. -/
def rowGet (r : List (PyStr × Py)) (c : PyStr) : Py :=
  match r with
  | [] => Py.none
  | kv :: rest => if kv.1 = c then kv.2 else rowGet rest c

/-- Replace the value bound to a column name inside one row. -/
def rowSet (r : List (PyStr × Py)) (c : PyStr) (v : Py) : List (PyStr × Py) :=
  r.map (fun kv => if kv.1 = c then (c, v) else kv)

/-- The key list of one row. -/
def rowKeys (r : List (PyStr × Py)) : List PyStr := r.map (fun kv => kv.1)

/-- Well-formedness: every row carries exactly the frame columns in
order. -/
def DataFrame.WF (df : DataFrame) : Prop := ∀ r ∈ df.rows, rowKeys r = df.cols

/-- pandas column read df[c] followed by .apply: the column as a list. -/
def DataFrame.getCol (df : DataFrame) (c : PyStr) : List Py :=
  df.rows.map (fun r => rowGet r c)

/-- pandas column assignment df[c] = values: updates an existing column in
place, or appends a new column at the end. -/
def DataFrame.setCol (df : DataFrame) (c : PyStr) (vals : List Py) : DataFrame :=
  if c ∈ df.cols then
    ⟨df.cols, List.zipWith (fun r v => rowSet r c v) df.rows vals⟩
  else
    ⟨df.cols ++ [c], List.zipWith (fun r v => r ++ [(c, v)]) df.rows vals⟩

/-- pandas boolean-mask row filtering (with .copy()). -/
def DataFrame.filterRows (df : DataFrame) (p : List (PyStr × Py) → Bool) : DataFrame :=
  ⟨df.cols, df.rows.filter p⟩

/-- pandas explode on one cell: a nonempty list yields its elements, an
empty list yields a single null, a non-list value stays as one row. -/
def explodeCell : Py → List Py
  | .list [] => [Py.none]
  | .list xs => xs
  | v => [v]

/-- pandas DataFrame.explode(c, ignore_index=True); a missing column is a
KeyError, modelled as failure. -/
def DataFrame.explode (df : DataFrame) (c : PyStr) : Option DataFrame :=
  if c ∈ df.cols then
    some ⟨df.cols,
      df.rows.flatMap (fun r => (explodeCell (rowGet r c)).map (fun x => rowSet r c x))⟩
  else none

/-- pandas column selection df[[c1, .., ck]] (with .copy()); a missing
column is a KeyError, modelled as failure. -/
def DataFrame.select (df : DataFrame) (cs : List PyStr) : Option DataFrame :=
  if cs.all (fun c => df.cols.contains c) then
    some ⟨cs, df.rows.map (fun r => cs.map (fun c => (c, rowGet r c)))⟩
  else none

/-- One renamed column name under a rename mapping. -/
def renameName (m : List (PyStr × PyStr)) (k : PyStr) : PyStr :=
  (((m.find? (fun kv => kv.1 == k)).map (fun kv => kv.2)).getD k)

/-- pandas DataFrame.rename(columns=m). -/
def DataFrame.rename (df : DataFrame) (m : List (PyStr × PyStr)) : DataFrame :=
  ⟨df.cols.map (renameName m),
   df.rows.map (fun r => r.map (fun kv => (renameName m kv.1, kv.2)))⟩

/-- Append the keys of ks not yet present, preserving first-appearance
order. -/
def insertNew (acc : List PyStr) (ks : List PyStr) : List PyStr :=
  ks.foldl (fun a k => if k ∈ a then a else a ++ [k]) acc

/-- The key list of one raw record. -/
def recordKeys : Py → List PyStr
  | .dict kvs => kvs.map (fun kv => kv.1)
  | _ => []

/-- Column list of pd.DataFrame(records): keys in order of first
appearance. -/
def unionKeys (records : List Py) : List PyStr :=
  records.foldl (fun a r => insertNew a (recordKeys r)) []

/-- pd.DataFrame(records) for a list of dict records: one row per record,
missing keys become null. -/
def pdDataFrame (records : List Py) : DataFrame :=
  let cols := unionKeys records
  ⟨cols, records.map (fun r => cols.map (fun c => (c, r.get c)))⟩

/-- pd.concat(ignore_index=True) of two frames: identical column lists
(the only case the pipeline exercises) append rows; otherwise columns are
unioned with null fill, as pandas does. -/
def concat2 (d1 d2 : DataFrame) : DataFrame :=
  if d1.cols = d2.cols then ⟨d1.cols, d1.rows ++ d2.rows⟩
  else
    let cols := insertNew d1.cols d2.cols
    ⟨cols, (d1.rows ++ d2.rows).map (fun r => cols.map (fun c => (c, rowGet r c)))⟩

/-- pd.concat over a list of frames. -/
def concatAll : List DataFrame → DataFrame
  | [] => ⟨[], []⟩
  | d :: ds => ds.foldl concat2 d

/-- Adding the constant transaction_type tag column, as the fetchers do on
a nonempty frame. -/
def tagCol (df : DataFrame) (v : PyStr) : DataFrame :=
  df.setCol (S "transaction_type") (df.rows.map (fun _ => Py.str v))

/-- The CustomerRef lambda shared by the flatten steps of both pipeline
variants: x.get(name) for a dict, null otherwise. -/
def customerNameOf (x : Py) : Py :=
  match x with
  | .dict _ => x.get (S "name")
  | _ => .none

/-- One HTTP response of the accounting-API query endpoint: status code,
response body text, and the parsed record list of the QueryResponse
payload. -/
structure Resp where
  status : Nat
  body : PyStr
  records : List Py
deriving DecidableEq

/-- The pagination loop shared by the sales-receipt fetchers: issue a
request, abort on a non-200 response with the status and body the failure
branch prints, accumulate the page, stop when the page is shorter than
max_results, else advance the start position.  The input list holds the
responses the server gives to successive requests; past its end the
server answers 200 with an empty page, which for max_results at least one
ends the loop.  Returns the accumulated records and the number of
requests issued. -/
def fetchPagesGo (maxResults : Nat) :
    List Resp → List Py → Nat → Except (Nat × PyStr) (List Py × Nat)
  | [], acc, reqs => .ok (acc, reqs + 1)
  | r :: rest, acc, reqs =>
    if r.status ≠ 200 then .error (r.status, r.body)
    else if r.records.length < maxResults then .ok (acc ++ r.records, reqs + 1)
    else fetchPagesGo maxResults rest (acc ++ r.records) (reqs + 1)

/-- fetch_qbo_sales_receipts_raw of qbo_api_wahssales_PROD.py, modelled
over the server-response list: paginate, build the raw DataFrame, and tag
a nonempty result with the Sales Receipt transaction type.  max_results
is the literal 1000 in the source; it is a parameter here so the
documented page-size scenarios can be stated. -/
def fetch_qbo_sales_receipts_raw (maxResults : Nat) (responses : List Resp) :
    Except (Nat × PyStr) (DataFrame × Nat) :=
  (fetchPagesGo maxResults responses [] 0).map (fun res =>
    let df := pdDataFrame res.1
    ((if df.rows.isEmpty then df else tagCol df (S "Sales Receipt")), res.2))

/-- The invoice pagination loop of qbo_api_wahssales_PROD.py: as the
sales-receipt loop, except that the while condition start_pos <= 1000
caps the fetch (source comment: limit fetch to 1000 records total). -/
def fetchInvoicesGo (maxResults : Nat) :
    List Resp → Nat → List Py → Nat → Except (Nat × PyStr) (List Py × Nat)
  | resp, startPos, acc, reqs =>
    if startPos > 1000 then .ok (acc, reqs)
    else
      match resp with
      | [] => .ok (acc, reqs + 1)
      | r :: rest =>
        if r.status ≠ 200 then .error (r.status, r.body)
        else if r.records.length < maxResults then .ok (acc ++ r.records, reqs + 1)
        else fetchInvoicesGo maxResults rest (startPos + maxResults) (acc ++ r.records) (reqs + 1)

/-- fetch_qbo_invoices_raw of qbo_api_wahssales_PROD.py. -/
def fetch_qbo_invoices_raw (maxResults : Nat) (responses : List Resp) :
    Except (Nat × PyStr) (DataFrame × Nat) :=
  (fetchInvoicesGo maxResults responses 1 [] 0).map (fun res =>
    let df := pdDataFrame res.1
    ((if df.rows.isEmpty then df else tagCol df (S "Invoice")), res.2))

/-- The pagination loop of fetch_qbo_payments_raw in qbo_api_test.py.  A
401 response hits a dedicated branch that prints a fixed token-expired
diagnostic and raises an exception with the fixed message Unauthorized
API Call., surfacing neither the response body nor anything else from the
response: modelled as an error carrying 401 and that fixed message.  Any
other non-200 response prints the status code and body and raises,
modelled as an error carrying them; otherwise as the sales-receipt
loop. -/
def fetchPaymentsGo (maxResults : Nat) :
    List Resp → List Py → Nat → Except (Nat × PyStr) (List Py × Nat)
  | [], acc, reqs => .ok (acc, reqs + 1)
  | r :: rest, acc, reqs =>
    if r.status = 401 then .error (401, S "Unauthorized API Call.")
    else if r.status ≠ 200 then .error (r.status, r.body)
    else if r.records.length < maxResults then .ok (acc ++ r.records, reqs + 1)
    else fetchPaymentsGo maxResults rest (acc ++ r.records) (reqs + 1)

/-- fetch_qbo_payments_raw of qbo_api_test.py. -/
def fetch_qbo_payments_raw (maxResults : Nat) (responses : List Resp) :
    Except (Nat × PyStr) (DataFrame × Nat) :=
  (fetchPaymentsGo maxResults responses [] 0).map (fun res => (pdDataFrame res.1, res.2))

namespace PROD

/-- clean_and_lower of qbo_api_wahssales_PROD.py: a missing/NaN input
becomes the empty string, anything else is str()-converted; then
whitespace runs collapse to single spaces and the result is lowercased. -/
def clean_and_lower (text : Py) : PyStr :=
  let s : PyStr :=
    match text with
    | .none => []
    | t => pyStrConv t
  pyNormalize s

/-- get_item_name of qbo_api_wahssales_PROD.py (ItemRef-only policy):
reads SalesItemLineDetail.ItemRef.name when the detail is truthy, strips
whitespace, and yields null otherwise. -/
def get_item_name (line : Py) : Py :=
  match line with
  | .dict _ =>
    if (line.get (S "SalesItemLineDetail")).truthy then
      let name := ((line.get (S "SalesItemLineDetail")).get (S "ItemRef")).get (S "name")
      if name.truthy then .str (pyStrip (pyStrConv name)) else .none
    else .none
  | _ => .none

/-- get_line_detail of qbo_api_wahssales_PROD.py: reads one key of
SalesItemLineDetail when the detail is truthy, null otherwise. -/
def get_line_detail (line : Py) (key : PyStr) : Py :=
  match line with
  | .dict _ =>
    if (line.get (S "SalesItemLineDetail")).truthy then
      (line.get (S "SalesItemLineDetail")).get key
    else .none
  | _ => .none

/-- The empty-result schema used by process_and_filter_df of
qbo_api_wahssales_PROD.py. -/
def EMPTY_COLS : List PyStr :=
  [S "Id", S "customer_name", S "transaction_date", S "item_name_raw",
   S "transaction_type", S "TotalAmt"]

/-- The column selection of the nonempty branch of process_and_filter_df
of qbo_api_wahssales_PROD.py. -/
def FINAL_COLS : List PyStr :=
  [S "Id", S "customer_name", S "transaction_date", S "item_name_raw",
   S "transaction_type", S "TotalAmt", S "Balance", S "quantity", S "sales_price"]

/-- The flatten-and-derive steps of process_and_filter_df in
qbo_api_wahssales_PROD.py (header derivation written into the callers
frame, Line explosion, item-name, normalized-name and line-detail
columns).  Returns the callers frame as it stands after the in-place
writes together with the derived line frame; a pandas KeyError for a
missing CustomerRef, TxnDate or Line column is modelled as failure. -/
def flattenStage (df_raw : DataFrame) : Option (DataFrame × DataFrame) :=
  if (S "CustomerRef") ∈ df_raw.cols ∧ (S "TxnDate") ∈ df_raw.cols then
    let df1 := df_raw.setCol (S "customer_name")
      ((df_raw.getCol (S "CustomerRef")).map customerNameOf)
    let df2 := df1.setCol (S "transaction_date")
      ((df1.getCol (S "TxnDate")).map toDatetimeCoerce)
    match df2.explode (S "Line") with
    | some df_lines =>
      let dfA := df_lines.setCol (S "item_name_raw")
        ((df_lines.getCol (S "Line")).map get_item_name)
      let dfB := dfA.setCol (S "item_name_lower")
        ((dfA.getCol (S "item_name_raw")).map (fun v => Py.str (clean_and_lower v)))
      let dfC := dfB.setCol (S "quantity")
        ((dfB.getCol (S "Line")).map (fun x => get_line_detail x (S "Qty")))
      let dfD := dfC.setCol (S "sales_price")
        ((dfC.getCol (S "Line")).map (fun x => get_line_detail x (S "UnitPrice")))
      some (df2, dfD)
    | none => none
  else none

/-- process_and_filter_df of qbo_api_wahssales_PROD.py.  The result pairs
the callers frame as it stands after the call with the returned filtered
frame. -/
def process_and_filter_df (df_raw : DataFrame) (target_product_clean : PyStr) :
    Option (DataFrame × DataFrame) :=
  if df_raw.rows.isEmpty then some (df_raw, ⟨EMPTY_COLS, []⟩)
  else
    match flattenStage df_raw with
    | some (post, df_lines) =>
      let df_product_lines := df_lines.filterRows
        (fun r => rowGet r (S "item_name_lower") == Py.str target_product_clean)
      if df_product_lines.rows.isEmpty then some (post, ⟨EMPTY_COLS, []⟩)
      else
        match df_product_lines.select FINAL_COLS with
        | some res => some (post, res)
        | none => none
    | none => none

/-- The combine-and-final-cleanup section of qbo_api_wahssales_PROD.py
(lines 261-301) building df_payments_final from the two filtered
frames. -/
def df_payments_final (df_filtered_receipts df_filtered_invoices : DataFrame) :
    Option DataFrame :=
  let dfs_to_concat := [df_filtered_receipts, df_filtered_invoices].filter
    (fun d => !d.rows.isEmpty)
  if dfs_to_concat.isEmpty then
    some ⟨[S "transaction_id", S "customer_name", S "transaction_date",
           S "product_name", S "line_amount", S "transaction_type"], []⟩
  else
    let df_combined := concatAll dfs_to_concat
    match df_combined.select
      [S "Id", S "customer_name", S "transaction_date", S "item_name_raw",
       S "transaction_type", S "quantity", S "sales_price", S "TotalAmt"] with
    | some sel =>
      let ren := sel.rename
        [(S "Id", S "transaction_id"), (S "TotalAmt", S "total_amount"),
         (S "item_name_raw", S "product_name")]
      let d1 := ren.setCol (S "total_amount")
        ((ren.getCol (S "total_amount")).map toNumericCoerce)
      let d2 := d1.setCol (S "quantity")
        ((d1.getCol (S "quantity")).map toNumericCoerce)
      let d3 := d2.setCol (S "sales_price")
        ((d2.getCol (S "sales_price")).map toNumericCoerce)
      some d3
    | none => none

end PROD

namespace WahsMain

/-- get_item_name of WAHS API Connection/main.py (Description-first
policy): prefer a truthy Description, otherwise fall back to
SalesItemLineDetail.ItemRef.name, strip whitespace, else null. -/
def get_item_name (line : Py) : Py :=
  match line with
  | .dict _ =>
    let name0 := line.get (S "Description")
    let name :=
      if !name0.truthy && (line.get (S "SalesItemLineDetail")).truthy then
        ((line.get (S "SalesItemLineDetail")).get (S "ItemRef")).get (S "name")
      else name0
    if name.truthy then .str (pyStrip (pyStrConv name)) else .none
  | _ => .none

/-- The schema used for empty frames by process_and_filter_df of
WAHS API Connection/main.py. -/
def EMPTY_COLS : List PyStr :=
  [S "Id", S "customer_name", S "transaction_date", S "item_name_raw",
   S "transaction_type", S "Amount"]

/-- Steps 1-3 of process_and_filter_df in WAHS API Connection/main.py:
header derivation written into the callers frame, Line explosion,
Description-first item-name extraction.  Returns the callers frame as it
stands after the in-place writes together with the derived line frame. -/
def flattenStage (df_raw : DataFrame) : Option (DataFrame × DataFrame) :=
  if (S "CustomerRef") ∈ df_raw.cols ∧ (S "TxnDate") ∈ df_raw.cols then
    let df1 := df_raw.setCol (S "customer_name")
      ((df_raw.getCol (S "CustomerRef")).map customerNameOf)
    let df2 := df1.setCol (S "transaction_date")
      ((df1.getCol (S "TxnDate")).map toDatetimeCoerce)
    match df2.explode (S "Line") with
    | some df_lines =>
      let dfA := df_lines.setCol (S "item_name_raw")
        ((df_lines.getCol (S "Line")).map get_item_name)
      some (df2, dfA)
    | none => none
  else none

/-- process_and_filter_df of WAHS API Connection/main.py, with the robust
filter logic: the target string and the astype(str)-forced item names are
normalized by the same whitespace-collapse-and-lowercase expression and
compared for equality. -/
def process_and_filter_df (df_raw : DataFrame) (target_product_string : PyStr) :
    Option (DataFrame × DataFrame) :=
  if df_raw.rows.isEmpty then some (df_raw, ⟨EMPTY_COLS, []⟩)
  else
    match flattenStage df_raw with
    | some (post, df_lines) =>
      let target_clean := pyNormalize target_product_string
      let dfB := df_lines.setCol (S "item_name_lower")
        ((df_lines.getCol (S "item_name_raw")).map
          (fun v => Py.str (pyNormalize (pyStrConv v))))
      let df_product_lines := dfB.filterRows
        (fun r => rowGet r (S "item_name_lower") == Py.str target_clean)
      if df_product_lines.rows.isEmpty then some (post, ⟨EMPTY_COLS, []⟩)
      else
        let dfG := df_product_lines.setCol (S "Amount")
          ((df_product_lines.getCol (S "Line")).map
            (fun x => match x with | Py.dict _ => x.get (S "Amount") | _ => Py.num 0))
        match dfG.select EMPTY_COLS with
        | some res => some (post, res)
        | none => none
    | none => none

/-- The combine-and-final-cleanup section of run_pipeline in
WAHS API Connection/main.py (lines 307-337) building df_payments_final
from the two filtered frames. -/
def df_payments_final (df_filtered_receipts df_filtered_invoices : DataFrame) :
    Option DataFrame :=
  let dfs_to_concat := [df_filtered_receipts, df_filtered_invoices].filter
    (fun d => !d.rows.isEmpty)
  if dfs_to_concat.isEmpty then
    some ⟨[S "transaction_id", S "customer_name", S "transaction_date",
           S "product_name", S "total_amount", S "transaction_type"], []⟩
  else
    let df_combined := concatAll dfs_to_concat
    match df_combined.select
      [S "Id", S "customer_name", S "transaction_date", S "item_name_raw",
       S "transaction_type", S "Amount"] with
    | some sel =>
      let ren := sel.rename
        [(S "Id", S "transaction_id"), (S "Amount", S "total_amount"),
         (S "item_name_raw", S "product_name")]
      some (ren.setCol (S "total_amount")
        ((ren.getCol (S "total_amount")).map toNumericCoerce))
    | none => none

end WahsMain

namespace Sandbox

/-- clean_and_lower of qbo_api_salesreceipts_sandbox.py: NaN stays null,
anything else is str()-converted, whitespace-collapsed and lowercased. -/
def clean_and_lower (text : Py) : Py :=
  match text with
  | .none => .none
  | t => .str (pyNormalize (pyStrConv t))

end Sandbox

/-- The length of a Line array value: list length, zero for an empty or
non-list value (the claim formula max(1, len) counts such records as one
row). -/
def pyLen : Py → Nat
  | .list xs => xs.length
  | _ => 0

/-- The Description-first extraction policy in the amended wording: the
whitespace-stripped string form of a truthy Description, else the
whitespace-stripped string form of SalesItemLineDetail.ItemRef.name when
the detail and the name are truthy, else null.  Stated from the spec
wording for comparison with the source function. -/
def itemNamePolicy (line : Py) : Py :=
  match line with
  | .dict _ =>
    if (line.get (S "Description")).truthy then
      .str (pyStrip (pyStrConv (line.get (S "Description"))))
    else if (line.get (S "SalesItemLineDetail")).truthy ∧
        (((line.get (S "SalesItemLineDetail")).get (S "ItemRef")).get (S "name")).truthy then
      .str (pyStrip (pyStrConv
        (((line.get (S "SalesItemLineDetail")).get (S "ItemRef")).get (S "name"))))
    else .none
  | _ => .none

/- Concrete sample data for scenario conjuncts, witnesses and
counterexamples. -/

/-- A sales-receipt line whose ItemRef name is the PROD target product. -/
def sampleLine1 : Py := Py.dict
  [(S "SalesItemLineDetail", Py.dict
      [(S "ItemRef", Py.dict [(S "name", Py.str (S "Products:We Are, HIPAA Smart"))]),
       (S "Qty", Py.num 2), (S "UnitPrice", Py.num 50)]),
   (S "Amount", Py.num 100)]

/-- A complete sales-receipt record. -/
def sampleRec1 : Py := Py.dict
  [(S "Id", Py.str (S "1")),
   (S "CustomerRef", Py.dict [(S "name", Py.str (S "Acme"))]),
   (S "TxnDate", Py.str (S "2024-01-05")),
   (S "TotalAmt", Py.num 100),
   (S "Balance", Py.num 0),
   (S "Line", Py.list [sampleLine1])]

/-- The raw tagged frame for the sample record, as the sales-receipt
fetcher would build it. -/
def sampleDF : DataFrame := tagCol (pdDataFrame [sampleRec1]) (S "Sales Receipt")

/-- A record whose single line has no Description and no ItemRef name, so
its extracted item name is null; second record with a malformed date and
an empty Line array. -/
def sampleRecNull : Py := Py.dict
  [(S "Id", Py.str (S "9")),
   (S "CustomerRef", Py.none),
   (S "TxnDate", Py.str (S "2024-02-02")),
   (S "TotalAmt", Py.str (S "abc")),
   (S "Balance", Py.num 0),
   (S "Line", Py.list [Py.dict [(S "DetailType", Py.str (S "SubTotalLineDetail"))]])]

/-- A record with a malformed transaction date and an empty Line array. -/
def sampleRecBad : Py := Py.dict
  [(S "Id", Py.str (S "7")),
   (S "CustomerRef", Py.dict [(S "name", Py.str (S "Beta"))]),
   (S "TxnDate", Py.str (S "not-a-date")),
   (S "TotalAmt", Py.str (S "abc")),
   (S "Balance", Py.num 0),
   (S "Line", Py.list [])]

/-- The raw tagged frame holding the null-name record, as the invoice
fetcher would build it. -/
def sampleDFNull : DataFrame := tagCol (pdDataFrame [sampleRecNull]) (S "Invoice")

/-- The raw tagged frame holding the null-name and malformed records. -/
def sampleDFBad : DataFrame := tagCol (pdDataFrame [sampleRecNull, sampleRecBad]) (S "Invoice")

/-- The record of the documented Description-first scenario. -/
def sampleRecScenario : Py := Py.dict
  [(S "CustomerRef", Py.dict [(S "name", Py.str (S "Acme"))]),
   (S "TxnDate", Py.str (S "2024-01-05")),
   (S "Line", Py.list
     [Py.dict [(S "Description", Py.str (S "Widget"))],
      Py.dict [(S "SalesItemLineDetail", Py.dict
        [(S "ItemRef", Py.dict [(S "name", Py.str (S "Gadget"))])])]])]

/-- A record for the main-variant pipeline whose line Description equals
the deployed target product of WAHS API Connection/main.py. -/
def sampleRecMain : Py := Py.dict
  [(S "Id", Py.str (S "3")),
   (S "CustomerRef", Py.dict [(S "name", Py.str (S "Acme"))]),
   (S "TxnDate", Py.str (S "2024-01-06")),
   (S "Line", Py.list
     [Py.dict [(S "Description", Py.str (S "Products:We Are HIPAA Smart")),
               (S "Amount", Py.num 42)]])]

/-- The raw tagged frame for the main-variant sample record. -/
def sampleDFMain : DataFrame := tagCol (pdDataFrame [sampleRecMain]) (S "Invoice")

/-- An empty frame with the PROD empty-result schema. -/
def emptyPROD : DataFrame := ⟨PROD.EMPTY_COLS, []⟩

/-- An empty frame with the main-variant empty-result schema. -/
def emptyMain : DataFrame := ⟨WahsMain.EMPTY_COLS, []⟩

/-- A one-row frame with the PROD nonempty filtered schema and
non-numeric amount fields. -/
def sampleFiltered9 : DataFrame :=
  ⟨PROD.FINAL_COLS,
   [[(S "Id", Py.str (S "1")), (S "customer_name", Py.str (S "Acme")),
     (S "transaction_date", Py.date 2024 1 5),
     (S "item_name_raw", Py.str (S "Products:We Are, HIPAA Smart")),
     (S "transaction_type", Py.str (S "Sales Receipt")),
     (S "TotalAmt", Py.str (S "abc")), (S "Balance", Py.num 0),
     (S "quantity", Py.str (S "x")), (S "sales_price", Py.none)]]⟩

/- ------------------------------------------------------------------ -/
/- Helper lemmas on rows and frame operations.                        -/
/- ------------------------------------------------------------------ -/

set_option maxRecDepth 100000
set_option synthInstance.maxHeartbeats 400000

instance : Inhabited Py := ⟨Py.none⟩

theorem rowGet_nil (c : PyStr) : rowGet [] c = Py.none := rfl

theorem rowGet_cons (kv : PyStr × Py) (rest : List (PyStr × Py)) (c : PyStr) :
    rowGet (kv :: rest) c = if kv.1 = c then kv.2 else rowGet rest c := rfl

theorem rowSet_cons (kv : PyStr × Py) (rest : List (PyStr × Py)) (c : PyStr) (v : Py) :
    rowSet (kv :: rest) c v = (if kv.1 = c then (c, v) else kv) :: rowSet rest c v := rfl

theorem rowKeys_cons (kv : PyStr × Py) (rest : List (PyStr × Py)) :
    rowKeys (kv :: rest) = kv.1 :: rowKeys rest := rfl

theorem rowKeys_append (r s : List (PyStr × Py)) :
    rowKeys (r ++ s) = rowKeys r ++ rowKeys s := by
  simp [rowKeys]

theorem rowKeys_rowSet (r : List (PyStr × Py)) (c : PyStr) (v : Py) :
    rowKeys (rowSet r c v) = rowKeys r := by
  induction r with
  | nil => rfl
  | cons kv rest ih =>
    rw [rowSet_cons, rowKeys_cons, rowKeys_cons, ih]
    by_cases h : kv.1 = c
    · simp [h]
    · simp [h]

theorem rowGet_append_left (r s : List (PyStr × Py)) (c : PyStr)
    (h : c ∈ rowKeys r) : rowGet (r ++ s) c = rowGet r c := by
  induction r with
  | nil => simp [rowKeys] at h
  | cons kv rest ih =>
    rw [List.cons_append, rowGet_cons, rowGet_cons]
    by_cases hk : kv.1 = c
    · simp [hk]
    · rw [if_neg hk, if_neg hk]
      apply ih
      rw [rowKeys_cons, List.mem_cons] at h
      rcases h with h | h
      · exact absurd h.symm hk
      · exact h

theorem rowGet_append_not_left (r s : List (PyStr × Py)) (c : PyStr)
    (h : c ∉ rowKeys r) : rowGet (r ++ s) c = rowGet s c := by
  induction r with
  | nil => rfl
  | cons kv rest ih =>
    rw [rowKeys_cons, List.mem_cons, not_or] at h
    rw [List.cons_append, rowGet_cons, if_neg (fun he => h.1 he.symm)]
    exact ih h.2

theorem rowGet_rowSet_self (r : List (PyStr × Py)) (c : PyStr) (v : Py)
    (h : c ∈ rowKeys r) : rowGet (rowSet r c v) c = v := by
  induction r with
  | nil => simp [rowKeys] at h
  | cons kv rest ih =>
    rw [rowSet_cons, rowGet_cons]
    by_cases hk : kv.1 = c
    · simp [hk]
    · rw [if_neg hk]
      simp only [if_neg hk]
      apply ih
      rw [rowKeys_cons, List.mem_cons] at h
      rcases h with h | h
      · exact absurd h.symm hk
      · exact h

theorem rowGet_rowSet_ne (r : List (PyStr × Py)) (c c2 : PyStr) (v : Py)
    (h : c2 ≠ c) : rowGet (rowSet r c v) c2 = rowGet r c2 := by
  induction r with
  | nil => rfl
  | cons kv rest ih =>
    rw [rowSet_cons, rowGet_cons, rowGet_cons]
    by_cases hk : kv.1 = c
    · rw [if_pos hk]
      simp only [if_neg (fun he : c = c2 => h he.symm)]
      rw [if_neg (fun he : kv.1 = c2 => h (hk ▸ he).symm)]
      exact ih
    · rw [if_neg hk]
      by_cases hc2 : kv.1 = c2
      · simp [hc2]
      · rw [if_neg hc2, if_neg hc2]
        exact ih

theorem rowSet_append (r s : List (PyStr × Py)) (c : PyStr) (v : Py) :
    rowSet (r ++ s) c v = rowSet r c v ++ rowSet s c v := by
  simp [rowSet]

theorem rowGet_selRow (cs : List PyStr) (r : List (PyStr × Py)) (c : PyStr)
    (h : c ∈ cs) : rowGet (cs.map (fun c2 => (c2, rowGet r c2))) c = rowGet r c := by
  induction cs with
  | nil => simp at h
  | cons c2 rest ih =>
    rw [List.map_cons, rowGet_cons]
    by_cases hc : c2 = c
    · simp [hc]
    · rw [if_neg hc]
      rw [List.mem_cons] at h
      rcases h with h | h
      · exact absurd h.symm hc
      · exact ih h

theorem zipWith_apply_map {α β γ : Type} (l : List α) (g : α → β → γ) (h : α → β) :
    List.zipWith g l (l.map h) = l.map (fun a => g a (h a)) := by
  induction l with
  | nil => rfl
  | cons a rest ih => simp [ih]

theorem setCol_map_fresh (df : DataFrame) (c c2 : PyStr) (f : Py → Py)
    (h : c ∉ df.cols) :
    df.setCol c ((df.getCol c2).map f) =
      ⟨df.cols ++ [c], df.rows.map (fun r => r ++ [(c, f (rowGet r c2))])⟩ := by
  simp only [DataFrame.setCol, if_neg h, DataFrame.getCol, List.map_map]
  rw [zipWith_apply_map]
  rfl

theorem setCol_map_update (df : DataFrame) (c c2 : PyStr) (f : Py → Py)
    (h : c ∈ df.cols) :
    df.setCol c ((df.getCol c2).map f) =
      ⟨df.cols, df.rows.map (fun r => rowSet r c (f (rowGet r c2)))⟩ := by
  simp only [DataFrame.setCol, if_pos h, DataFrame.getCol, List.map_map]
  rw [zipWith_apply_map]
  rfl

theorem setCol_cols_mem (df : DataFrame) (c c2 : PyStr) (vals : List Py)
    (h : c2 ∈ df.cols) : c2 ∈ (df.setCol c vals).cols := by
  simp only [DataFrame.setCol]
  by_cases hc : c ∈ df.cols
  · simpa [hc] using h
  · simp [hc, List.mem_append, h]

theorem rowKeys_append_single (r : List (PyStr × Py)) (c : PyStr) (v : Py) :
    rowKeys (r ++ [(c, v)]) = rowKeys r ++ [c] := by
  simp [rowKeys]

theorem rowSet_not_mem (r : List (PyStr × Py)) (c : PyStr) (v : Py)
    (h : c ∉ rowKeys r) : rowSet r c v = r := by
  induction r with
  | nil => rfl
  | cons kv rest ih =>
    rw [rowKeys_cons, List.mem_cons, not_or] at h
    rw [rowSet_cons, if_neg (fun he => h.1 he.symm), ih h.2]

theorem explodeCell_length (v : Py) : (explodeCell v).length = max 1 (pyLen v) := by
  cases v with
  | list xs =>
    cases xs with
    | nil => rfl
    | cons x rest => simp [explodeCell, pyLen, Nat.max_eq_right, Nat.succ_le_succ]
  | none => rfl
  | str s => rfl
  | num n => rfl
  | date y m d => rfl
  | dict kvs => rfl

theorem length_flatMap {α β : Type} (l : List α) (f : α → List β) :
    (l.flatMap f).length = (l.map (fun a => (f a).length)).sum := by
  induction l with
  | nil => rfl
  | cons a rest ih => simp [List.flatMap_cons, ih]

theorem flatMap_congr {α β : Type} (l : List α) (f g : α → List β)
    (h : ∀ a ∈ l, f a = g a) : l.flatMap f = l.flatMap g := by
  induction l with
  | nil => rfl
  | cons a rest ih =>
    rw [List.flatMap_cons, List.flatMap_cons, h a (by simp),
      ih (fun a ha => h a (by simp [ha]))]

theorem rowGet_append_single_ne (r : List (PyStr × Py)) (c k : PyStr) (v : Py)
    (hck : c ≠ k) : rowGet (r ++ [(k, v)]) c = rowGet r c := by
  induction r with
  | nil =>
    rw [List.nil_append, rowGet_cons, if_neg (fun h : k = c => hck h.symm)]
  | cons kv rest ih =>
    rw [List.cons_append, rowGet_cons, rowGet_cons, ih]

theorem rowGet_append_single_self (r : List (PyStr × Py)) (c : PyStr) (v : Py)
    (h : c ∉ rowKeys r) : rowGet (r ++ [(c, v)]) c = v := by
  rw [rowGet_append_not_left _ _ _ h, rowGet_cons, if_pos rfl]

theorem prod_flattenStage_char (df : DataFrame) (hWF : df.WF)
    (hCR : S "CustomerRef" ∈ df.cols) (hTD : S "TxnDate" ∈ df.cols)
    (hL : S "Line" ∈ df.cols)
    (hcn : S "customer_name" ∉ df.cols) (htd : S "transaction_date" ∉ df.cols)
    (hinr : S "item_name_raw" ∉ df.cols) (hlow : S "item_name_lower" ∉ df.cols)
    (hq : S "quantity" ∉ df.cols) (hsp : S "sales_price" ∉ df.cols)
    (post dfl : DataFrame) (heq : PROD.flattenStage df = some (post, dfl)) :
    post.cols = df.cols ++ [S "customer_name", S "transaction_date"] ∧
    post.rows.length = df.rows.length ∧
    dfl.rows.length = (df.rows.map (fun r => max 1 (pyLen (rowGet r (S "Line"))))).sum ∧
    ∀ r2 ∈ dfl.rows, ∃ r ∈ df.rows, ∃ x ∈ explodeCell (rowGet r (S "Line")),
      rowGet r2 (S "Line") = x ∧
      rowGet r2 (S "customer_name") = customerNameOf (rowGet r (S "CustomerRef")) ∧
      rowGet r2 (S "transaction_date") = toDatetimeCoerce (rowGet r (S "TxnDate")) ∧
      rowGet r2 (S "item_name_raw") = PROD.get_item_name x ∧
      rowGet r2 (S "item_name_lower") = Py.str (PROD.clean_and_lower (PROD.get_item_name x)) ∧
      rowGet r2 (S "quantity") = PROD.get_line_detail x (S "Qty") ∧
      rowGet r2 (S "sales_price") = PROD.get_line_detail x (S "UnitPrice") ∧
      (∀ c ∈ df.cols, c ≠ S "Line" → rowGet r2 c = rowGet r c) := by
  have htd1 : (S "transaction_date" : PyStr) ∉ df.cols ++ [S "customer_name"] := by
    intro hmem
    rcases List.mem_append.mp hmem with h | h
    · exact htd h
    · revert h; decide
  have hL2 : (S "Line" : PyStr) ∈ (df.cols ++ [S "customer_name"]) ++ [S "transaction_date"] :=
    List.mem_append_left _ (List.mem_append_left _ hL)
  have hinr2 : (S "item_name_raw" : PyStr) ∉ (df.cols ++ [S "customer_name"]) ++ [S "transaction_date"] := by
    intro hmem
    rcases List.mem_append.mp hmem with h | h
    · rcases List.mem_append.mp h with h | h
      · exact hinr h
      · revert h; decide
    · revert h; decide
  simp only [PROD.flattenStage] at heq
  rw [if_pos ⟨hCR, hTD⟩] at heq
  rw [setCol_map_fresh df (S "customer_name") (S "CustomerRef") customerNameOf hcn] at heq
  rw [setCol_map_fresh _ (S "transaction_date") (S "TxnDate") toDatetimeCoerce htd1] at heq
  simp only [DataFrame.explode] at heq
  rw [if_pos hL2] at heq
  simp only [] at heq
  have hlow2 : (S "item_name_lower" : PyStr) ∉
      (df.cols ++ [S "customer_name"] ++ [S "transaction_date"]) ++ [S "item_name_raw"] := by
    simp only [List.mem_append, List.mem_singleton, not_or]
    refine ⟨⟨⟨hlow, ?_⟩, ?_⟩, ?_⟩ <;> decide
  have hq2 : (S "quantity" : PyStr) ∉
      ((df.cols ++ [S "customer_name"] ++ [S "transaction_date"]) ++ [S "item_name_raw"]) ++
        [S "item_name_lower"] := by
    simp only [List.mem_append, List.mem_singleton, not_or]
    refine ⟨⟨⟨⟨hq, ?_⟩, ?_⟩, ?_⟩, ?_⟩ <;> decide
  have hsp2 : (S "sales_price" : PyStr) ∉
      (((df.cols ++ [S "customer_name"] ++ [S "transaction_date"]) ++ [S "item_name_raw"]) ++
        [S "item_name_lower"]) ++ [S "quantity"] := by
    simp only [List.mem_append, List.mem_singleton, not_or]
    refine ⟨⟨⟨⟨⟨hsp, ?_⟩, ?_⟩, ?_⟩, ?_⟩, ?_⟩ <;> decide
  rw [setCol_map_fresh _ (S "item_name_raw") (S "Line") PROD.get_item_name hinr2] at heq
  rw [setCol_map_fresh _ (S "item_name_lower") (S "item_name_raw")
    (fun v => Py.str (PROD.clean_and_lower v)) hlow2] at heq
  rw [setCol_map_fresh _ (S "quantity") (S "Line")
    (fun x => PROD.get_line_detail x (S "Qty")) hq2] at heq
  rw [setCol_map_fresh _ (S "sales_price") (S "Line")
    (fun x => PROD.get_line_detail x (S "UnitPrice")) hsp2] at heq
  rw [Option.some.injEq] at heq
  injection heq with h1 h2
  subst h1
  subst h2
  refine ⟨by simp, by simp, ?_, ?_⟩
  · simp only [List.length_map, length_flatMap, List.map_map]
    apply congrArg List.sum
    apply List.map_congr_left
    intro r hr
    simp only [Function.comp_apply, List.length_map]
    rw [rowGet_append_single_ne _ _ _ _ (by decide),
      rowGet_append_single_ne _ _ _ _ (by decide), explodeCell_length]
  · intro r2 hr2
    simp only [List.map_map, List.mem_map] at hr2
    obtain ⟨r3, hr3, rfl⟩ := hr2
    rw [List.mem_flatMap] at hr3
    obtain ⟨rg, hrg, hr3⟩ := hr3
    simp only [List.map_map, List.mem_map] at hrg
    obtain ⟨r, hr, rfl⟩ := hrg
    rw [List.mem_map] at hr3
    obtain ⟨x, hx, rfl⟩ := hr3
    simp only [Function.comp_apply] at hx ⊢
    rw [rowGet_append_single_ne _ _ _ _ (by decide),
      rowGet_append_single_ne _ _ _ _ (by decide)] at hx
    refine ⟨r, hr, x, hx, ?_⟩
    have hkrg : rowKeys ((r ++ [(S "customer_name", customerNameOf (rowGet r (S "CustomerRef")))]) ++
        [(S "transaction_date", toDatetimeCoerce
          (rowGet (r ++ [(S "customer_name", customerNameOf (rowGet r (S "CustomerRef")))]) (S "TxnDate")))]) =
        df.cols ++ [S "customer_name"] ++ [S "transaction_date"] := by
      rw [rowKeys_append_single, rowKeys_append_single, hWF r hr]
    have hkR0 : rowKeys (rowSet ((r ++ [(S "customer_name", customerNameOf (rowGet r (S "CustomerRef")))]) ++
        [(S "transaction_date", toDatetimeCoerce
          (rowGet (r ++ [(S "customer_name", customerNameOf (rowGet r (S "CustomerRef")))]) (S "TxnDate")))])
        (S "Line") x) = df.cols ++ [S "customer_name"] ++ [S "transaction_date"] := by
      rw [rowKeys_rowSet, hkrg]
    set R0 := rowSet ((r ++ [(S "customer_name", customerNameOf (rowGet r (S "CustomerRef")))]) ++
        [(S "transaction_date", toDatetimeCoerce
          (rowGet (r ++ [(S "customer_name", customerNameOf (rowGet r (S "CustomerRef")))]) (S "TxnDate")))])
        (S "Line") x with hR0def
    have hR0L : rowGet R0 (S "Line") = x := by
      rw [hR0def]
      apply rowGet_rowSet_self
      rw [hkrg]
      exact List.mem_append_left _ (List.mem_append_left _ hL)
    have hP1_inr : ∀ v : Py, rowGet (R0 ++ [(S "item_name_raw", v)]) (S "item_name_raw") = v := by
      intro v
      apply rowGet_append_single_self
      rw [hkR0]
      exact hinr2
    have hP2_L : ∀ v1 v2 : Py,
        rowGet ((R0 ++ [(S "item_name_raw", v1)]) ++ [(S "item_name_lower", v2)]) (S "Line") = x := by
      intro v1 v2
      rw [rowGet_append_single_ne _ _ _ _ (by decide),
        rowGet_append_single_ne _ _ _ _ (by decide), hR0L]
    have hP3_L : ∀ v1 v2 v3 : Py,
        rowGet (((R0 ++ [(S "item_name_raw", v1)]) ++ [(S "item_name_lower", v2)]) ++
          [(S "quantity", v3)]) (S "Line") = x := by
      intro v1 v2 v3
      rw [rowGet_append_single_ne _ _ _ _ (by decide), hP2_L]
    have hQ_inr : ∀ v1 v2 v3 v4 : Py,
        rowGet ((((R0 ++ [(S "item_name_raw", v1)]) ++ [(S "item_name_lower", v2)]) ++
          [(S "quantity", v3)]) ++ [(S "sales_price", v4)]) (S "item_name_raw") = v1 := by
      intro v1 v2 v3 v4
      rw [rowGet_append_single_ne _ _ _ _ (by decide),
        rowGet_append_single_ne _ _ _ _ (by decide),
        rowGet_append_single_ne _ _ _ _ (by decide), hP1_inr]
    have hQ_low : ∀ v1 v2 v3 v4 : Py,
        rowGet ((((R0 ++ [(S "item_name_raw", v1)]) ++ [(S "item_name_lower", v2)]) ++
          [(S "quantity", v3)]) ++ [(S "sales_price", v4)]) (S "item_name_lower") = v2 := by
      intro v1 v2 v3 v4
      rw [rowGet_append_single_ne _ _ _ _ (by decide),
        rowGet_append_single_ne _ _ _ _ (by decide)]
      apply rowGet_append_single_self
      rw [rowKeys_append_single, hkR0]
      exact hlow2
    have hQ_q : ∀ v1 v2 v3 v4 : Py,
        rowGet ((((R0 ++ [(S "item_name_raw", v1)]) ++ [(S "item_name_lower", v2)]) ++
          [(S "quantity", v3)]) ++ [(S "sales_price", v4)]) (S "quantity") = v3 := by
      intro v1 v2 v3 v4
      rw [rowGet_append_single_ne _ _ _ _ (by decide)]
      apply rowGet_append_single_self
      rw [rowKeys_append_single, rowKeys_append_single, hkR0]
      exact hq2
    have hQ_sp : ∀ v1 v2 v3 v4 : Py,
        rowGet ((((R0 ++ [(S "item_name_raw", v1)]) ++ [(S "item_name_lower", v2)]) ++
          [(S "quantity", v3)]) ++ [(S "sales_price", v4)]) (S "sales_price") = v4 := by
      intro v1 v2 v3 v4
      apply rowGet_append_single_self
      rw [rowKeys_append_single, rowKeys_append_single, rowKeys_append_single, hkR0]
      exact hsp2
    have hQ_L : ∀ v1 v2 v3 v4 : Py,
        rowGet ((((R0 ++ [(S "item_name_raw", v1)]) ++ [(S "item_name_lower", v2)]) ++
          [(S "quantity", v3)]) ++ [(S "sales_price", v4)]) (S "Line") = x := by
      intro v1 v2 v3 v4
      rw [rowGet_append_single_ne _ _ _ _ (by decide), hP3_L]
    have hR0_cn : rowGet R0 (S "customer_name") = customerNameOf (rowGet r (S "CustomerRef")) := by
      rw [hR0def, rowGet_rowSet_ne _ _ _ _ (by decide),
        rowGet_append_single_ne _ _ _ _ (by decide)]
      apply rowGet_append_single_self
      rw [hWF r hr]
      exact hcn
    have hR0_td : rowGet R0 (S "transaction_date") = toDatetimeCoerce (rowGet r (S "TxnDate")) := by
      rw [hR0def, rowGet_rowSet_ne _ _ _ _ (by decide)]
      rw [rowGet_append_single_self _ _ _ (by
        rw [rowKeys_append_single, hWF r hr]
        simp only [List.mem_append, List.mem_singleton, not_or]
        exact ⟨htd, by decide⟩)]
      rw [rowGet_append_single_ne _ _ _ _ (by decide)]
    have hQ_cn : ∀ v1 v2 v3 v4 : Py,
        rowGet ((((R0 ++ [(S "item_name_raw", v1)]) ++ [(S "item_name_lower", v2)]) ++
          [(S "quantity", v3)]) ++ [(S "sales_price", v4)]) (S "customer_name") =
          customerNameOf (rowGet r (S "CustomerRef")) := by
      intro v1 v2 v3 v4
      rw [rowGet_append_single_ne _ _ _ _ (by decide),
        rowGet_append_single_ne _ _ _ _ (by decide),
        rowGet_append_single_ne _ _ _ _ (by decide),
        rowGet_append_single_ne _ _ _ _ (by decide), hR0_cn]
    have hQ_td : ∀ v1 v2 v3 v4 : Py,
        rowGet ((((R0 ++ [(S "item_name_raw", v1)]) ++ [(S "item_name_lower", v2)]) ++
          [(S "quantity", v3)]) ++ [(S "sales_price", v4)]) (S "transaction_date") =
          toDatetimeCoerce (rowGet r (S "TxnDate")) := by
      intro v1 v2 v3 v4
      rw [rowGet_append_single_ne _ _ _ _ (by decide),
        rowGet_append_single_ne _ _ _ _ (by decide),
        rowGet_append_single_ne _ _ _ _ (by decide),
        rowGet_append_single_ne _ _ _ _ (by decide), hR0_td]
    refine ⟨hQ_L _ _ _ _, hQ_cn _ _ _ _, hQ_td _ _ _ _, ?_, ?_, ?_, ?_, ?_⟩
    · rw [hQ_inr, hR0L]
    · rw [hQ_low, hP1_inr, hR0L]
    · rw [hQ_q, hP2_L]
    · rw [hQ_sp, hP3_L]
    · intro c hc hcL
      rw [rowGet_append_single_ne _ _ _ _ (fun he : c = S "sales_price" => hsp (he ▸ hc)),
        rowGet_append_single_ne _ _ _ _ (fun he : c = S "quantity" => hq (he ▸ hc)),
        rowGet_append_single_ne _ _ _ _ (fun he : c = S "item_name_lower" => hlow (he ▸ hc)),
        rowGet_append_single_ne _ _ _ _ (fun he : c = S "item_name_raw" => hinr (he ▸ hc)),
        hR0def, rowGet_rowSet_ne _ _ _ _ hcL,
        rowGet_append_single_ne _ _ _ _ (fun he : c = S "transaction_date" => htd (he ▸ hc)),
        rowGet_append_single_ne _ _ _ _ (fun he : c = S "customer_name" => hcn (he ▸ hc))]

theorem main_flattenStage_char (df : DataFrame) (hWF : df.WF)
    (hCR : S "CustomerRef" ∈ df.cols) (hTD : S "TxnDate" ∈ df.cols)
    (hL : S "Line" ∈ df.cols)
    (hcn : S "customer_name" ∉ df.cols) (htd : S "transaction_date" ∉ df.cols)
    (hinr : S "item_name_raw" ∉ df.cols)
    (post dfl : DataFrame) (heq : WahsMain.flattenStage df = some (post, dfl)) :
    post.cols = df.cols ++ [S "customer_name", S "transaction_date"] ∧
    post.rows.length = df.rows.length ∧
    dfl.cols = df.cols ++ [S "customer_name", S "transaction_date", S "item_name_raw"] ∧
    dfl.rows.length = (df.rows.map (fun r => max 1 (pyLen (rowGet r (S "Line"))))).sum ∧
    ∀ r2 ∈ dfl.rows, ∃ r ∈ df.rows, ∃ x ∈ explodeCell (rowGet r (S "Line")),
      rowGet r2 (S "Line") = x ∧
      rowGet r2 (S "customer_name") = customerNameOf (rowGet r (S "CustomerRef")) ∧
      rowGet r2 (S "transaction_date") = toDatetimeCoerce (rowGet r (S "TxnDate")) ∧
      rowGet r2 (S "item_name_raw") = WahsMain.get_item_name x ∧
      rowKeys r2 = df.cols ++ [S "customer_name", S "transaction_date", S "item_name_raw"] ∧
      (∀ c ∈ df.cols, c ≠ S "Line" → rowGet r2 c = rowGet r c) := by
  have htd1 : (S "transaction_date" : PyStr) ∉ df.cols ++ [S "customer_name"] := by
    intro hmem
    rcases List.mem_append.mp hmem with h | h
    · exact htd h
    · revert h; decide
  have hL2 : (S "Line" : PyStr) ∈ (df.cols ++ [S "customer_name"]) ++ [S "transaction_date"] :=
    List.mem_append_left _ (List.mem_append_left _ hL)
  have hinr2 : (S "item_name_raw" : PyStr) ∉
      (df.cols ++ [S "customer_name"]) ++ [S "transaction_date"] := by
    intro hmem
    rcases List.mem_append.mp hmem with h | h
    · rcases List.mem_append.mp h with h | h
      · exact hinr h
      · revert h; decide
    · revert h; decide
  simp only [WahsMain.flattenStage] at heq
  rw [if_pos ⟨hCR, hTD⟩] at heq
  rw [setCol_map_fresh df (S "customer_name") (S "CustomerRef") customerNameOf hcn] at heq
  rw [setCol_map_fresh _ (S "transaction_date") (S "TxnDate") toDatetimeCoerce htd1] at heq
  simp only [DataFrame.explode] at heq
  rw [if_pos hL2] at heq
  simp only [] at heq
  rw [setCol_map_fresh _ (S "item_name_raw") (S "Line") WahsMain.get_item_name hinr2] at heq
  rw [Option.some.injEq] at heq
  injection heq with h1 h2
  subst h1
  subst h2
  refine ⟨by simp, by simp, by simp, ?_, ?_⟩
  · simp only [List.length_map, length_flatMap, List.map_map]
    apply congrArg List.sum
    apply List.map_congr_left
    intro r hr
    simp only [Function.comp_apply, List.length_map]
    rw [rowGet_append_single_ne _ _ _ _ (by decide),
      rowGet_append_single_ne _ _ _ _ (by decide), explodeCell_length]
  · intro r2 hr2
    simp only [List.map_map, List.mem_map] at hr2
    obtain ⟨r3, hr3, rfl⟩ := hr2
    rw [List.mem_flatMap] at hr3
    obtain ⟨rg, hrg, hr3⟩ := hr3
    simp only [List.map_map, List.mem_map] at hrg
    obtain ⟨r, hr, rfl⟩ := hrg
    rw [List.mem_map] at hr3
    obtain ⟨x, hx, rfl⟩ := hr3
    simp only [Function.comp_apply] at hx ⊢
    rw [rowGet_append_single_ne _ _ _ _ (by decide),
      rowGet_append_single_ne _ _ _ _ (by decide)] at hx
    refine ⟨r, hr, x, hx, ?_⟩
    have hkrg : rowKeys ((r ++ [(S "customer_name", customerNameOf (rowGet r (S "CustomerRef")))]) ++
        [(S "transaction_date", toDatetimeCoerce
          (rowGet (r ++ [(S "customer_name", customerNameOf (rowGet r (S "CustomerRef")))]) (S "TxnDate")))]) =
        df.cols ++ [S "customer_name"] ++ [S "transaction_date"] := by
      rw [rowKeys_append_single, rowKeys_append_single, hWF r hr]
    have hkR0 : rowKeys (rowSet ((r ++ [(S "customer_name", customerNameOf (rowGet r (S "CustomerRef")))]) ++
        [(S "transaction_date", toDatetimeCoerce
          (rowGet (r ++ [(S "customer_name", customerNameOf (rowGet r (S "CustomerRef")))]) (S "TxnDate")))])
        (S "Line") x) = df.cols ++ [S "customer_name"] ++ [S "transaction_date"] := by
      rw [rowKeys_rowSet, hkrg]
    set R0 := rowSet ((r ++ [(S "customer_name", customerNameOf (rowGet r (S "CustomerRef")))]) ++
        [(S "transaction_date", toDatetimeCoerce
          (rowGet (r ++ [(S "customer_name", customerNameOf (rowGet r (S "CustomerRef")))]) (S "TxnDate")))])
        (S "Line") x with hR0def
    have hR0L : rowGet R0 (S "Line") = x := by
      rw [hR0def]
      apply rowGet_rowSet_self
      rw [hkrg]
      exact List.mem_append_left _ (List.mem_append_left _ hL)
    have hP1_inr : ∀ v : Py, rowGet (R0 ++ [(S "item_name_raw", v)]) (S "item_name_raw") = v := by
      intro v
      apply rowGet_append_single_self
      rw [hkR0]
      exact hinr2
    have hR0_cn : rowGet R0 (S "customer_name") = customerNameOf (rowGet r (S "CustomerRef")) := by
      rw [hR0def, rowGet_rowSet_ne _ _ _ _ (by decide),
        rowGet_append_single_ne _ _ _ _ (by decide)]
      apply rowGet_append_single_self
      rw [hWF r hr]
      exact hcn
    have hR0_td : rowGet R0 (S "transaction_date") = toDatetimeCoerce (rowGet r (S "TxnDate")) := by
      rw [hR0def, rowGet_rowSet_ne _ _ _ _ (by decide)]
      rw [rowGet_append_single_self _ _ _ (by
        rw [rowKeys_append_single, hWF r hr]
        simp only [List.mem_append, List.mem_singleton, not_or]
        exact ⟨htd, by decide⟩)]
      rw [rowGet_append_single_ne _ _ _ _ (by decide)]
    refine ⟨?_, ?_, ?_, ?_, ?_, ?_⟩
    · rw [rowGet_append_single_ne _ _ _ _ (by decide), hR0L]
    · rw [rowGet_append_single_ne _ _ _ _ (by decide), hR0_cn]
    · rw [rowGet_append_single_ne _ _ _ _ (by decide), hR0_td]
    · rw [hP1_inr, hR0L]
    · rw [rowKeys_append_single, hkR0]
      simp
    · intro c hc hcL
      rw [rowGet_append_single_ne _ _ _ _ (fun he : c = S "item_name_raw" => hinr (he ▸ hc)),
        hR0def, rowGet_rowSet_ne _ _ _ _ hcL,
        rowGet_append_single_ne _ _ _ _ (fun he : c = S "transaction_date" => htd (he ▸ hc)),
        rowGet_append_single_ne _ _ _ _ (fun he : c = S "customer_name" => hcn (he ▸ hc))]

theorem prod_process_output_char (df : DataFrame) (tc : PyStr) (hWF : df.WF)
    (hCR : S "CustomerRef" ∈ df.cols) (hTD : S "TxnDate" ∈ df.cols)
    (hL : S "Line" ∈ df.cols)
    (hcn : S "customer_name" ∉ df.cols) (htd : S "transaction_date" ∉ df.cols)
    (hinr : S "item_name_raw" ∉ df.cols) (hlow : S "item_name_lower" ∉ df.cols)
    (hq : S "quantity" ∉ df.cols) (hsp : S "sales_price" ∉ df.cols)
    (post res : DataFrame) (heq : PROD.process_and_filter_df df tc = some (post, res)) :
    ∀ r2 ∈ res.rows, PROD.clean_and_lower (rowGet r2 (S "item_name_raw")) = tc := by
  simp only [PROD.process_and_filter_df] at heq
  split at heq
  · rw [Option.some.injEq] at heq
    injection heq with h1 h2
    subst h2
    intro r2 hr2
    simp at hr2
  · rcases hfs : PROD.flattenStage df with _ | ⟨post1, dfl⟩
    · rw [hfs] at heq
      exact absurd heq (by simp)
    · rw [hfs] at heq
      simp only [] at heq
      obtain ⟨hpc, hpl, hcnt, hchar⟩ :=
        prod_flattenStage_char df hWF hCR hTD hL hcn htd hinr hlow hq hsp post1 dfl hfs
      split at heq
      · rw [Option.some.injEq] at heq
        injection heq with h1 h2
        subst h2
        intro r2 hr2
        simp at hr2
      · rcases hsel : (dfl.filterRows
            (fun r => rowGet r (S "item_name_lower") == Py.str tc)).select PROD.FINAL_COLS
            with _ | res1
        · rw [hsel] at heq
          exact absurd heq (by simp)
        · rw [hsel] at heq
          simp only [Option.some.injEq] at heq
          injection heq with h1 h2
          subst h2
          simp only [DataFrame.select, DataFrame.filterRows] at hsel
          split at hsel
          · rw [Option.some.injEq] at hsel
            subst hsel
            intro r2 hr2
            simp only [List.mem_map] at hr2
            obtain ⟨rf, hrf, rfl⟩ := hr2
            rw [List.mem_filter] at hrf
            obtain ⟨hrfmem, hpred⟩ := hrf
            rw [beq_iff_eq] at hpred
            obtain ⟨r, hrmem, x, hxmem, hxL, hxcn, hxtd, hxinr, hxlow, hxq, hxsp, hoth⟩ :=
              hchar rf hrfmem
            rw [rowGet_selRow _ _ _ (by decide), hxinr]
            rw [hxlow] at hpred
            exact Py.str.inj hpred
          · exact absurd hsel (by simp)

theorem main_process_output_char (df : DataFrame) (target : PyStr) (hWF : df.WF)
    (hCR : S "CustomerRef" ∈ df.cols) (hTD : S "TxnDate" ∈ df.cols)
    (hL : S "Line" ∈ df.cols)
    (hcn : S "customer_name" ∉ df.cols) (htd : S "transaction_date" ∉ df.cols)
    (hinr : S "item_name_raw" ∉ df.cols) (hlow : S "item_name_lower" ∉ df.cols)
    (post res : DataFrame) (heq : WahsMain.process_and_filter_df df target = some (post, res)) :
    ∀ r2 ∈ res.rows, pyNormalize (pyStrConv (rowGet r2 (S "item_name_raw"))) = pyNormalize target := by
  simp only [WahsMain.process_and_filter_df] at heq
  split at heq
  · rw [Option.some.injEq] at heq
    injection heq with h1 h2
    subst h2
    intro r2 hr2
    simp at hr2
  · rcases hfs : WahsMain.flattenStage df with _ | ⟨post1, dfl⟩
    · rw [hfs] at heq
      exact absurd heq (by simp)
    · rw [hfs] at heq
      simp only [] at heq
      obtain ⟨hpc, hpl, hcols, hcnt, hchar⟩ :=
        main_flattenStage_char df hWF hCR hTD hL hcn htd hinr post1 dfl hfs
      have hlowB : (S "item_name_lower" : PyStr) ∉ dfl.cols := by
        rw [hcols]
        intro hmem
        rcases List.mem_append.mp hmem with h | h
        · exact hlow h
        · revert h; decide
      rw [setCol_map_fresh dfl (S "item_name_lower") (S "item_name_raw")
        (fun v => Py.str (pyNormalize (pyStrConv v))) hlowB] at heq
      simp only [DataFrame.filterRows] at heq
      split at heq
      · rw [Option.some.injEq] at heq
        injection heq with h1 h2
        subst h2
        intro r2 hr2
        simp at hr2
      · have hmem_inr : (S "item_name_raw" : PyStr) ∈ WahsMain.EMPTY_COLS := by decide
        have main_row_fact : ∀ rf ∈ (dfl.rows.map (fun r => r ++
              [(S "item_name_lower", Py.str (pyNormalize (pyStrConv (rowGet r (S "item_name_raw")))))])).filter
              (fun r => rowGet r (S "item_name_lower") == Py.str (pyNormalize target)),
            pyNormalize (pyStrConv (rowGet rf (S "item_name_raw"))) = pyNormalize target := by
          intro rf hrf
          rw [List.mem_filter] at hrf
          obtain ⟨hrfmem, hpred⟩ := hrf
          rw [List.mem_map] at hrfmem
          obtain ⟨r0, hr0, rfl⟩ := hrfmem
          obtain ⟨r, hrmem, x, hxmem, hxL, hxcn, hxtd, hxinr, hxkeys, hoth⟩ := hchar r0 hr0
          rw [beq_iff_eq] at hpred
          rw [rowGet_append_single_self _ _ _ (by
            rw [hxkeys]
            intro hmem2
            rcases List.mem_append.mp hmem2 with h | h
            · exact hlow h
            · revert h; decide)] at hpred
          rw [rowGet_append_single_ne _ _ _ _ (by decide)]
          exact Py.str.inj hpred
        by_cases hA : (S "Amount" : PyStr) ∈ dfl.cols ++ [S "item_name_lower"]
        · rw [setCol_map_update _ (S "Amount") (S "Line")
            (fun x => match x with | Py.dict _ => x.get (S "Amount") | _ => Py.num 0) hA] at heq
          split at heq
          · rename_i res1 hsel
            rw [Option.some.injEq] at heq
            injection heq with h1 h2
            subst h2
            simp only [DataFrame.select] at hsel
            split at hsel
            · rw [Option.some.injEq] at hsel
              subst hsel
              intro r2 hr2
              simp only [List.mem_map] at hr2
              obtain ⟨rg, hrg, rfl⟩ := hr2
              obtain ⟨rf, hrf, rfl⟩ := hrg
              rw [rowGet_selRow _ _ _ hmem_inr,
                rowGet_rowSet_ne _ _ _ _ (by decide)]
              exact main_row_fact rf hrf
            · exact absurd hsel (by simp)
          · rename_i hsel
            exact absurd heq (by simp)
        · rw [setCol_map_fresh _ (S "Amount") (S "Line")
            (fun x => match x with | Py.dict _ => x.get (S "Amount") | _ => Py.num 0) hA] at heq
          split at heq
          · rename_i res1 hsel
            rw [Option.some.injEq] at heq
            injection heq with h1 h2
            subst h2
            simp only [DataFrame.select] at hsel
            split at hsel
            · rw [Option.some.injEq] at hsel
              subst hsel
              intro r2 hr2
              simp only [List.mem_map] at hr2
              obtain ⟨rg, hrg, rfl⟩ := hr2
              obtain ⟨rf, hrf, rfl⟩ := hrg
              rw [rowGet_selRow _ _ _ hmem_inr,
                rowGet_append_single_ne _ _ _ _ (by decide)]
              exact main_row_fact rf hrf
            · exact absurd hsel (by simp)
          · rename_i hsel
            exact absurd heq (by simp)

theorem char_toNat_ofNat_small (n : Nat) (h : n < 1000) : (Char.ofNat n).toNat = n := by
  unfold Char.ofNat
  rw [dif_pos (by constructor; omega)]
  unfold Char.ofNatAux Char.toNat
  simp [UInt32.toNat, BitVec.toNat_ofNatLt]

theorem lowChar_lowChar (c : Char) : lowChar (lowChar c) = lowChar c := by
  by_cases h : 65 ≤ c.toNat ∧ c.toNat ≤ 90
  · have h1 : lowChar c = Char.ofNat (c.toNat + 32) := by rw [lowChar, if_pos h]
    rw [h1, lowChar, if_neg (by
      rw [char_toNat_ofNat_small (c.toNat + 32) (by omega)]
      omega)]
  · have h1 : lowChar c = c := by rw [lowChar, if_neg h]
    simp [h1]

theorem isPyWs_false_of_ge (c : Char) (h : 65 ≤ c.toNat) : isPyWs c = false := by
  have hx : ∀ d : Char, d.toNat < 65 → (c == d) = false := fun d hd =>
    beq_eq_false_iff_ne.mpr (fun he => by rw [he] at h; omega)
  rw [isPyWs, hx ' ' (by decide), hx '\t' (by decide), hx '\n' (by decide),
    hx '\x0d' (by decide), hx (Char.ofNat 11) (by decide), hx (Char.ofNat 12) (by decide)]
  rfl

theorem isPyWs_lowChar (c : Char) : isPyWs (lowChar c) = isPyWs c := by
  by_cases h : 65 ≤ c.toNat ∧ c.toNat ≤ 90
  · rw [lowChar, if_pos h]
    rw [isPyWs_false_of_ge _ (by rw [char_toNat_ofNat_small (c.toNat + 32) (by omega)]; omega),
      isPyWs_false_of_ge _ h.1]
  · rw [lowChar, if_neg h]

theorem pySplitAux_words (s : List Char) (acc : List Char)
    (hacc : ∀ c ∈ acc, isPyWs c = false) :
    ∀ w ∈ pySplitAux s acc, w ≠ [] ∧ ∀ c ∈ w, isPyWs c = false := by
  induction s generalizing acc with
  | nil =>
    intro w hw
    rw [pySplitAux] at hw
    split at hw
    · simp at hw
    · rename_i hne
      rw [List.mem_singleton] at hw
      subst hw
      refine ⟨by simpa using hne, ?_⟩
      intro c hc
      exact hacc c (by simpa using hc)
  | cons c cs ih =>
    intro w hw
    rw [pySplitAux] at hw
    split at hw
    · rename_i hws
      split at hw
      · exact ih [] (by simp) w hw
      · rename_i hne
        rw [List.mem_cons] at hw
        rcases hw with hw | hw
        · subst hw
          refine ⟨by simpa using hne, ?_⟩
          intro c2 hc2
          exact hacc c2 (by simpa using hc2)
        · exact ih [] (by simp) w hw
    · rename_i hws
      refine ih (c :: acc) ?_ w hw
      intro c2 hc2
      rw [List.mem_cons] at hc2
      rcases hc2 with hc2 | hc2
      · subst hc2
        simpa using hws
      · exact hacc c2 hc2

theorem pySplitAux_append_word (w s : List Char) (acc : List Char)
    (hw : ∀ c ∈ w, isPyWs c = false) :
    pySplitAux (w ++ s) acc = pySplitAux s (w.reverse ++ acc) := by
  induction w generalizing acc with
  | nil => rfl
  | cons c wrest ih =>
    rw [List.cons_append, pySplitAux, if_neg (by simp [hw c (by simp)])]
    rw [ih _ (fun c2 hc2 => hw c2 (by simp [hc2]))]
    simp

theorem pySplit_join (ws : List PyStr)
    (h : ∀ w ∈ ws, w ≠ [] ∧ ∀ c ∈ w, isPyWs c = false) :
    pySplit (pyJoin ws) = ws := by
  induction ws with
  | nil => rfl
  | cons w ws2 ih =>
    cases ws2 with
    | nil =>
      show pySplit (pyJoin [w]) = [w]
      rw [pyJoin, pySplit]
      rw [show (w : List Char) = w ++ [] by simp]
      rw [pySplitAux_append_word _ _ _ (h w (by simp)).2]
      rw [pySplitAux, if_neg (by simpa using (h w (by simp)).1)]
      simp
    | cons v ws3 =>
      rw [show pyJoin (w :: v :: ws3) = w ++ ' ' :: pyJoin (v :: ws3) from rfl, pySplit]
      rw [pySplitAux_append_word _ _ _ (h w (by simp)).2]
      rw [pySplitAux, if_pos (by decide), if_neg (by simpa using (h w (by simp)).1)]
      rw [List.append_nil, List.reverse_reverse]
      rw [show pySplitAux (pyJoin (v :: ws3)) [] = pySplit (pyJoin (v :: ws3)) from rfl]
      rw [ih (fun w2 hw2 => h w2 (by simp [hw2]))]

theorem lowStr_append (a b : PyStr) : lowStr (a ++ b) = lowStr a ++ lowStr b := by
  simp [lowStr]

theorem lowStr_cons (c : Char) (t : PyStr) : lowStr (c :: t) = lowChar c :: lowStr t := rfl

theorem lowStr_join (ws : List PyStr) : lowStr (pyJoin ws) = pyJoin (ws.map lowStr) := by
  induction ws with
  | nil => rfl
  | cons w ws2 ih =>
    cases ws2 with
    | nil => rfl
    | cons v ws3 =>
      rw [List.map_cons, List.map_cons]
      rw [show pyJoin (w :: v :: ws3) = w ++ ' ' :: pyJoin (v :: ws3) from rfl]
      rw [show pyJoin (lowStr w :: lowStr v :: List.map lowStr ws3) =
        lowStr w ++ ' ' :: pyJoin (lowStr v :: List.map lowStr ws3) from rfl]
      rw [List.map_cons] at ih
      rw [lowStr_append, lowStr_cons, show lowChar ' ' = ' ' from by decide, ih]

theorem pyNormalize_idem (s : PyStr) : pyNormalize (pyNormalize s) = pyNormalize s := by
  have hws := pySplitAux_words s [] (by simp)
  simp only [pyNormalize]
  rw [lowStr_join (pySplit s)]
  rw [pySplit_join ((pySplit s).map lowStr) ?_]
  · rw [lowStr_join, List.map_map]
    congr 1
    apply List.map_congr_left
    intro w hw
    show lowStr (lowStr w) = lowStr w
    simp only [lowStr, List.map_map]
    apply List.map_congr_left
    intro c hc
    exact lowChar_lowChar c
  · intro w2 hw2
    rw [List.mem_map] at hw2
    obtain ⟨w, hw, rfl⟩ := hw2
    constructor
    · simpa [lowStr] using (hws w hw).1
    · intro c hc
      rw [lowStr, List.mem_map] at hc
      obtain ⟨c0, hc0, rfl⟩ := hc
      rw [isPyWs_lowChar]
      exact (hws w hw).2 c0 hc0

theorem fetchPagesGo_shift (m : Nat) (resp : List Resp) (acc : List Py) (reqs : Nat) :
    fetchPagesGo m resp acc reqs =
      match fetchPagesGo m resp [] 0 with
      | .ok (recs, n) => .ok (acc ++ recs, reqs + n)
      | .error e => .error e := by
  induction resp generalizing acc reqs with
  | nil => simp [fetchPagesGo]
  | cons r rest ih =>
    by_cases hst : r.status = 200
    · by_cases hlen : r.records.length < m
      · simp [fetchPagesGo, hst, hlen]
      · rw [fetchPagesGo, if_neg (by simp [hst]), if_neg hlen]
        rw [show fetchPagesGo m (r :: rest) [] 0 =
          fetchPagesGo m rest ([] ++ r.records) (0 + 1) from by
            rw [fetchPagesGo, if_neg (by simp [hst]), if_neg hlen]]
        rw [ih (acc ++ r.records) (reqs + 1), ih ([] ++ r.records) (0 + 1)]
        rcases hgo : fetchPagesGo m rest [] 0 with e | ⟨recs, n⟩
        · simp
        · simp only []
          rw [List.nil_append, List.append_assoc]
          have : reqs + 1 + n = reqs + (1 + n) := by omega
          rw [this]
    · simp [fetchPagesGo, hst]

theorem concatAll_pair (d1 d2 : DataFrame) : concatAll [d1, d2] = concat2 d1 d2 := rfl

theorem concatAll_single (d : DataFrame) : concatAll [d] = d := rfl

theorem main_finalize_shape (dfC : DataFrame) (hc : dfC.cols = WahsMain.EMPTY_COLS) :
    ∃ sel, dfC.select [S "Id", S "customer_name", S "transaction_date", S "item_name_raw",
        S "transaction_type", S "Amount"] = some sel ∧
      ((sel.rename [(S "Id", S "transaction_id"), (S "Amount", S "total_amount"),
        (S "item_name_raw", S "product_name")]).setCol (S "total_amount")
        (((sel.rename [(S "Id", S "transaction_id"), (S "Amount", S "total_amount"),
          (S "item_name_raw", S "product_name")]).getCol (S "total_amount")).map
            toNumericCoerce)).cols =
      [S "transaction_id", S "customer_name", S "transaction_date",
       S "product_name", S "transaction_type", S "total_amount"] ∧
      sel.rows.length = dfC.rows.length := by
  rw [DataFrame.select, if_pos (by rw [hc]; decide)]
  refine ⟨_, rfl, ?_, by simp⟩
  rw [setCol_map_update _ _ _ _ (by simp only [DataFrame.rename]; decide)]
  simp only [DataFrame.rename]
  decide

theorem prod_finalize_shape (dfC : DataFrame) (hc : dfC.cols = PROD.FINAL_COLS) :
    ∃ sel, dfC.select [S "Id", S "customer_name", S "transaction_date", S "item_name_raw",
        S "transaction_type", S "quantity", S "sales_price", S "TotalAmt"] = some sel ∧
      (let ren := sel.rename [(S "Id", S "transaction_id"), (S "TotalAmt", S "total_amount"),
          (S "item_name_raw", S "product_name")]
       let d1 := ren.setCol (S "total_amount")
          ((ren.getCol (S "total_amount")).map toNumericCoerce)
       let d2 := d1.setCol (S "quantity") ((d1.getCol (S "quantity")).map toNumericCoerce)
       (d2.setCol (S "sales_price")
          ((d2.getCol (S "sales_price")).map toNumericCoerce)).cols) =
        [S "transaction_id", S "customer_name", S "transaction_date", S "product_name",
         S "transaction_type", S "quantity", S "sales_price", S "total_amount"] ∧
      sel.rows.length = dfC.rows.length := by
  rw [DataFrame.select, if_pos (by rw [hc]; decide)]
  refine ⟨_, rfl, ?_, by simp⟩
  simp only []
  rw [setCol_map_update _ (S "total_amount") _ _ (by simp only [DataFrame.rename]; decide)]
  rw [setCol_map_update _ (S "quantity") _ _ (by simp only [DataFrame.rename]; decide)]
  rw [setCol_map_update _ (S "sales_price") _ _ (by simp only [DataFrame.rename]; decide)]
  simp only [DataFrame.rename]
  decide

theorem main_df_payments_final_all_empty (dfR dfI : DataFrame)
    (hR : dfR.rows = []) (hI : dfI.rows = []) :
    WahsMain.df_payments_final dfR dfI =
      some ⟨[S "transaction_id", S "customer_name", S "transaction_date",
             S "product_name", S "total_amount", S "transaction_type"], []⟩ := by
  simp [WahsMain.df_payments_final, hR, hI]

theorem prod_df_payments_final_all_empty (dfR dfI : DataFrame)
    (hR : dfR.rows = []) (hI : dfI.rows = []) :
    PROD.df_payments_final dfR dfI =
      some ⟨[S "transaction_id", S "customer_name", S "transaction_date",
             S "product_name", S "line_amount", S "transaction_type"], []⟩ := by
  simp [PROD.df_payments_final, hR, hI]

theorem main_df_payments_final_nonempty (dfR dfI : DataFrame)
    (hRc : dfR.rows ≠ [] → dfR.cols = WahsMain.EMPTY_COLS)
    (hIc : dfI.rows ≠ [] → dfI.cols = WahsMain.EMPTY_COLS)
    (hne : dfR.rows ≠ [] ∨ dfI.rows ≠ []) :
    ∃ out, WahsMain.df_payments_final dfR dfI = some out ∧
      out.cols = [S "transaction_id", S "customer_name", S "transaction_date",
        S "product_name", S "transaction_type", S "total_amount"] := by
  by_cases hR : dfR.rows = [] <;> by_cases hI : dfI.rows = []
  · rcases hne with h | h <;> contradiction
  · obtain ⟨sel, hsel, hcols, hlen⟩ := main_finalize_shape dfI (hIc hI)
    have hfil : List.filter (fun d => !d.rows.isEmpty) [dfR, dfI] = [dfI] := by
      simp [List.filter, hR, List.isEmpty_eq_false.mpr hI]
    simp only [WahsMain.df_payments_final, hfil]
    rw [if_neg (by simp), concatAll_single, hsel]
    exact ⟨_, rfl, hcols⟩
  · obtain ⟨sel, hsel, hcols, hlen⟩ := main_finalize_shape dfR (hRc hR)
    have hfil : List.filter (fun d => !d.rows.isEmpty) [dfR, dfI] = [dfR] := by
      simp [List.filter, hI, List.isEmpty_eq_false.mpr hR]
    simp only [WahsMain.df_payments_final, hfil]
    rw [if_neg (by simp), concatAll_single, hsel]
    exact ⟨_, rfl, hcols⟩
  · have hcc : (concat2 dfR dfI).cols = WahsMain.EMPTY_COLS := by
      rw [concat2, if_pos (by rw [hRc hR, hIc hI])]
      exact hRc hR
    obtain ⟨sel, hsel, hcols, hlen⟩ := main_finalize_shape (concat2 dfR dfI) hcc
    have hfil : List.filter (fun d => !d.rows.isEmpty) [dfR, dfI] = [dfR, dfI] := by
      simp [List.filter, List.isEmpty_eq_false.mpr hR, List.isEmpty_eq_false.mpr hI]
    simp only [WahsMain.df_payments_final, hfil]
    rw [if_neg (by simp), concatAll_pair, hsel]
    exact ⟨_, rfl, hcols⟩

theorem prod_df_payments_final_nonempty (dfR dfI : DataFrame)
    (hRc : dfR.rows ≠ [] → dfR.cols = PROD.FINAL_COLS)
    (hIc : dfI.rows ≠ [] → dfI.cols = PROD.FINAL_COLS)
    (hne : dfR.rows ≠ [] ∨ dfI.rows ≠ []) :
    ∃ out, PROD.df_payments_final dfR dfI = some out ∧
      out.cols = [S "transaction_id", S "customer_name", S "transaction_date",
        S "product_name", S "transaction_type", S "quantity", S "sales_price",
        S "total_amount"] := by
  by_cases hR : dfR.rows = [] <;> by_cases hI : dfI.rows = []
  · rcases hne with h | h <;> contradiction
  · obtain ⟨sel, hsel, hcols, hlen⟩ := prod_finalize_shape dfI (hIc hI)
    have hfil : List.filter (fun d => !d.rows.isEmpty) [dfR, dfI] = [dfI] := by
      simp [List.filter, hR, List.isEmpty_eq_false.mpr hI]
    simp only [PROD.df_payments_final, hfil]
    rw [if_neg (by simp), concatAll_single, hsel]
    exact ⟨_, rfl, hcols⟩
  · obtain ⟨sel, hsel, hcols, hlen⟩ := prod_finalize_shape dfR (hRc hR)
    have hfil : List.filter (fun d => !d.rows.isEmpty) [dfR, dfI] = [dfR] := by
      simp [List.filter, hI, List.isEmpty_eq_false.mpr hR]
    simp only [PROD.df_payments_final, hfil]
    rw [if_neg (by simp), concatAll_single, hsel]
    exact ⟨_, rfl, hcols⟩
  · have hcc : (concat2 dfR dfI).cols = PROD.FINAL_COLS := by
      rw [concat2, if_pos (by rw [hRc hR, hIc hI])]
      exact hRc hR
    obtain ⟨sel, hsel, hcols, hlen⟩ := prod_finalize_shape (concat2 dfR dfI) hcc
    have hfil : List.filter (fun d => !d.rows.isEmpty) [dfR, dfI] = [dfR, dfI] := by
      simp [List.filter, List.isEmpty_eq_false.mpr hR, List.isEmpty_eq_false.mpr hI]
    simp only [PROD.df_payments_final, hfil]
    rw [if_neg (by simp), concatAll_pair, hsel]
    exact ⟨_, rfl, hcols⟩

theorem prod_flattenStage_isSome (df : DataFrame)
    (hCR : S "CustomerRef" ∈ df.cols) (hTD : S "TxnDate" ∈ df.cols)
    (hL : S "Line" ∈ df.cols) : ∃ pr, PROD.flattenStage df = some pr := by
  simp only [PROD.flattenStage]
  rw [if_pos ⟨hCR, hTD⟩]
  rw [DataFrame.explode, if_pos (setCol_cols_mem _ _ _ _ (setCol_cols_mem _ _ _ _ hL))]
  exact ⟨_, rfl⟩

theorem prod_process_post (df : DataFrame) (tc : PyStr) (hWF : df.WF)
    (hCR : S "CustomerRef" ∈ df.cols) (hTD : S "TxnDate" ∈ df.cols)
    (hL : S "Line" ∈ df.cols)
    (hcn : S "customer_name" ∉ df.cols) (htd : S "transaction_date" ∉ df.cols)
    (hinr : S "item_name_raw" ∉ df.cols) (hlow : S "item_name_lower" ∉ df.cols)
    (hq : S "quantity" ∉ df.cols) (hsp : S "sales_price" ∉ df.cols)
    (hne : df.rows ≠ [])
    (post res : DataFrame) (heq : PROD.process_and_filter_df df tc = some (post, res)) :
    post.cols = df.cols ++ [S "customer_name", S "transaction_date"] := by
  simp only [PROD.process_and_filter_df] at heq
  split at heq
  · rename_i hemp
    exact absurd (List.isEmpty_eq_true.mp hemp) hne
  · rcases hfs : PROD.flattenStage df with _ | ⟨post1, dfl⟩
    · rw [hfs] at heq
      exact absurd heq (by simp)
    · rw [hfs] at heq
      simp only [] at heq
      obtain ⟨hpc, hpl, hcnt, hchar⟩ :=
        prod_flattenStage_char df hWF hCR hTD hL hcn htd hinr hlow hq hsp post1 dfl hfs
      split at heq
      · rw [Option.some.injEq] at heq
        injection heq with h1 h2
        subst h1
        exact hpc
      · split at heq
        · rename_i res1 hsel
          rw [Option.some.injEq] at heq
          injection heq with h1 h2
          subst h1
          exact hpc
        · exact absurd heq (by simp)

theorem main_process_post (df : DataFrame) (target : PyStr) (hWF : df.WF)
    (hCR : S "CustomerRef" ∈ df.cols) (hTD : S "TxnDate" ∈ df.cols)
    (hL : S "Line" ∈ df.cols)
    (hcn : S "customer_name" ∉ df.cols) (htd : S "transaction_date" ∉ df.cols)
    (hinr : S "item_name_raw" ∉ df.cols)
    (hne : df.rows ≠ [])
    (post res : DataFrame) (heq : WahsMain.process_and_filter_df df target = some (post, res)) :
    post.cols = df.cols ++ [S "customer_name", S "transaction_date"] := by
  simp only [WahsMain.process_and_filter_df] at heq
  split at heq
  · rename_i hemp
    exact absurd (List.isEmpty_eq_true.mp hemp) hne
  · rcases hfs : WahsMain.flattenStage df with _ | ⟨post1, dfl⟩
    · rw [hfs] at heq
      exact absurd heq (by simp)
    · rw [hfs] at heq
      simp only [] at heq
      obtain ⟨hpc, hpl, hcols, hcnt, hchar⟩ :=
        main_flattenStage_char df hWF hCR hTD hL hcn htd hinr post1 dfl hfs
      split at heq
      · rw [Option.some.injEq] at heq
        injection heq with h1 h2
        subst h1
        exact hpc
      · split at heq
        · rename_i res1 hsel
          rw [Option.some.injEq] at heq
          injection heq with h1 h2
          subst h1
          exact hpc
        · exact absurd heq (by simp)

/-- C9: the normalization function is idempotent on every input, including
null/missing values, for the clean_and_lower of qbo_api_wahssales_PROD.py
(null becomes the empty string) and the clean_and_lower of
qbo_api_salesreceipts_sandbox.py (null stays null). -/
theorem C9_normalize_idempotent :
    (∀ t : Py, PROD.clean_and_lower (Py.str (PROD.clean_and_lower t)) = PROD.clean_and_lower t) ∧
    (∀ t : Py, Sandbox.clean_and_lower (Sandbox.clean_and_lower t) = Sandbox.clean_and_lower t) := by
  constructor
  · intro t
    show pyNormalize (pyStrConv (Py.str (PROD.clean_and_lower t))) = PROD.clean_and_lower t
    show pyNormalize (PROD.clean_and_lower t) = PROD.clean_and_lower t
    exact pyNormalize_idem _
  · intro t
    cases t with
    | none => rfl
    | str s => exact congrArg Py.str (pyNormalize_idem _)
    | num n => exact congrArg Py.str (pyNormalize_idem _)
    | date y m d => exact congrArg Py.str (pyNormalize_idem _)
    | dict kvs => exact congrArg Py.str (pyNormalize_idem _)
    | list xs => exact congrArg Py.str (pyNormalize_idem _)

/-- C8 counterexample: a line whose Description is present and non-empty
(a padded " Widget ") has extracted item name "Widget", not the
Description field itself — the extraction strips whitespace, so the claim
as stated fails. -/
theorem C8_counterexample :
    WahsMain.get_item_name (Py.dict [(S "Description", Py.str (S " Widget "))]) =
      Py.str (S "Widget") ∧
    Py.str (S "Widget") ≠ Py.str (S " Widget ") := by
  constructor
  · decide
  · decide

/-- C8 amended: under the Description-first policy the extracted item name
is the whitespace-stripped string form of a truthy Description, else the
whitespace-stripped ItemRef name when the SalesItemLineDetail and the name
are truthy, else null; the documented record flattens to exactly two rows
with item names Widget and Gadget. -/
theorem C8_description_first :
    (∀ line : Py, WahsMain.get_item_name line = itemNamePolicy line) ∧
    (WahsMain.flattenStage (pdDataFrame [sampleRecScenario])).map
        (fun p => p.2.rows.map (fun r => rowGet r (S "item_name_raw"))) =
      some [Py.str (S "Widget"), Py.str (S "Gadget")] := by
  constructor
  · intro line
    cases line with
    | dict kvs =>
      simp only [WahsMain.get_item_name, itemNamePolicy]
      by_cases h0 : ((Py.dict kvs).get (S "Description")).truthy
      · simp [h0]
      · by_cases h1 : ((Py.dict kvs).get (S "SalesItemLineDetail")).truthy
        · simp [h0, h1]
        · simp [h0, h1]
    | none => rfl
    | str s => rfl
    | num n => rfl
    | date y m d => rfl
    | list xs => rfl
  · decide

/-- C2 counterexample: with the production page size 1000, the invoice
fetcher of qbo_api_wahssales_PROD.py caps its loop at start position 1000,
so after a first page of exactly 1000 records it stops at one request and
never returns the second page — the claim that a full page always triggers
one more request fails for this fetcher. -/
theorem C2_counterexample :
    fetchInvoicesGo 1000 [⟨200, [], List.replicate 1000 (Py.num 0)⟩, ⟨200, [], [Py.num 7]⟩]
        1 [] 0 = .ok (List.replicate 1000 (Py.num 0), 1) ∧
    (fetch_qbo_invoices_raw 1000
        [⟨200, [], List.replicate 1000 (Py.num 0)⟩, ⟨200, [], [Py.num 7]⟩]).map
        (fun p => p.2) = .ok 1 ∧
    (1 : Nat) ≠ 2 := by
  have hgo : fetchInvoicesGo 1000
      [⟨200, [], List.replicate 1000 (Py.num 0)⟩, ⟨200, [], [Py.num 7]⟩] 1 [] 0 =
      .ok (List.replicate 1000 (Py.num 0), 1) := by
    rw [fetchInvoicesGo, if_neg (by norm_num)]
    simp only []
    rw [if_neg (by norm_num), if_neg (by simp)]
    rw [fetchInvoicesGo, if_pos (by norm_num)]
    simp
  refine ⟨hgo, ?_, by norm_num⟩
  rw [fetch_qbo_invoices_raw, hgo]
  rfl

/-- C2 amended: the sales-receipt fetcher stops exactly on a page strictly
shorter than max_results and a full page always triggers one more request,
accumulating pages in order without deduplication; the documented
pageSize=2 scenario (pages of 2 then 1 give 2 requests and 3 records)
holds for both fetchers; but the invoice fetcher of
qbo_api_wahssales_PROD.py additionally caps its loop at start position
1000, so at the production page size 1000 a full first page gets no
further request. -/
theorem C2_pagination :
    (∀ (m : Nat) (r : Resp) (rest : List Resp), r.status = 200 → r.records.length < m →
       fetchPagesGo m (r :: rest) [] 0 = .ok (r.records, 1)) ∧
    (∀ (m : Nat) (r : Resp) (rest : List Resp), r.status = 200 → r.records.length = m →
       fetchPagesGo m (r :: rest) [] 0 =
         match fetchPagesGo m rest [] 0 with
         | .ok (recs, n) => .ok (r.records ++ recs, 1 + n)
         | .error e => .error e) ∧
    (∀ (a b c2 : Py) (s1 s2 : PyStr),
       fetchPagesGo 2 [⟨200, s1, [a, b]⟩, ⟨200, s2, [c2]⟩] [] 0 = .ok ([a, b, c2], 2) ∧
       fetchInvoicesGo 2 [⟨200, s1, [a, b]⟩, ⟨200, s2, [c2]⟩] 1 [] 0 = .ok ([a, b, c2], 2)) ∧
    (∀ (r : Resp) (rest : List Resp), r.status = 200 → r.records.length = 1000 →
       fetchInvoicesGo 1000 (r :: rest) 1 [] 0 = .ok (r.records, 1)) := by
  refine ⟨?_, ?_, ?_, ?_⟩
  · intro m r rest hst hlen
    rw [fetchPagesGo, if_neg (by simp [hst]), if_pos hlen]
    simp
  · intro m r rest hst hlen
    rw [fetchPagesGo, if_neg (by simp [hst]), if_neg (by omega)]
    rw [fetchPagesGo_shift]
    rcases hgo : fetchPagesGo m rest [] 0 with e | ⟨recs, n⟩
    · simp
    · simp
  · intro a b c2 s1 s2
    constructor
    · rw [fetchPagesGo, if_neg (by simp), if_neg (by simp)]
      rw [fetchPagesGo, if_neg (by simp), if_pos (by simp)]
      simp
    · rw [fetchInvoicesGo, if_neg (by norm_num)]
      simp only []
      rw [if_neg (by simp), if_neg (by simp)]
      rw [fetchInvoicesGo, if_neg (by norm_num)]
      simp only []
      rw [if_neg (by simp), if_pos (by simp)]
      simp
  · intro r rest hst hlen
    rw [fetchInvoicesGo, if_neg (by norm_num)]
    rw [if_neg (by simp [hst]), if_neg (by omega)]
    rw [fetchInvoicesGo.eq_def]
    simp only []
    rw [if_pos (by norm_num)]
    simp

/-- C2 witness at concrete inputs: a short first page stops at one
request; the pageSize=2 scenario returns three records in two requests;
the capped invoice fetcher stops after one full page of 1000. -/
theorem C2_witness :
    fetchPagesGo 5 [⟨200, [], [Py.num 1]⟩] [] 0 = .ok ([Py.num 1], 1) ∧
    fetchPagesGo 2 [⟨200, [], [Py.num 1, Py.num 2]⟩, ⟨200, [], [Py.num 3]⟩] [] 0 =
      .ok ([Py.num 1, Py.num 2, Py.num 3], 2) ∧
    fetchInvoicesGo 1000 [⟨200, [], List.replicate 1000 (Py.num 0)⟩] 1 [] 0 =
      .ok (List.replicate 1000 (Py.num 0), 1) := by
  refine ⟨?_, ?_, ?_⟩
  · exact C2_pagination.1 5 ⟨200, [], [Py.num 1]⟩ [] rfl (by norm_num)
  · exact (C2_pagination.2.2.1 (Py.num 1) (Py.num 2) (Py.num 3) [] []).1
  · exact C2_pagination.2.2.2 ⟨200, [], List.replicate 1000 (Py.num 0)⟩ [] rfl (by simp)

/-- C7 counterexample: the fetchers raise on any response with status
code different from 200, so the 2xx status 201 fails although the claim
says 2xx responses do not fail. -/
theorem C7_counterexample :
    fetch_qbo_sales_receipts_raw 1000 [⟨201, S "created", []⟩] = .error (201, S "created") ∧
    200 ≤ 201 ∧ 201 < 300 := by
  refine ⟨?_, by norm_num, by norm_num⟩
  rw [fetch_qbo_sales_receipts_raw, fetchPagesGo, if_pos (by norm_num)]
  rfl

/-- C7 amended: every fetcher loop fails exactly on a status different
from 200 (so some 2xx responses, such as 201, fail); for the
sales-receipt and invoice fetchers, and for the payments fetcher on
non-401 statuses, the failure carries the status code and body the
failure branch prints; the 401 branch of the payments fetcher instead
fails with its fixed unauthorized message and surfaces neither the status
from the response nor the body; the failure is immediate and independent
of any further prepared responses (no retry), and a run whose responses
all have status 200 never fails. -/
theorem C7_non200_failure :
    (∀ (m : Nat) (r : Resp) (rest : List Resp) (acc : List Py) (reqs : Nat), r.status ≠ 200 →
       fetchPagesGo m (r :: rest) acc reqs = .error (r.status, r.body)) ∧
    (∀ (m : Nat) (resp : List Resp), (∀ r ∈ resp, r.status = 200) →
       ∀ (acc : List Py) (reqs : Nat), ∃ p, fetchPagesGo m resp acc reqs = .ok p) ∧
    (∀ (m : Nat) (r : Resp) (rest : List Resp) (acc : List Py) (reqs : Nat), r.status = 401 →
       fetchPaymentsGo m (r :: rest) acc reqs = .error (401, S "Unauthorized API Call.")) ∧
    (∀ (m : Nat) (r : Resp) (rest : List Resp) (acc : List Py) (reqs : Nat),
       r.status ≠ 200 → r.status ≠ 401 →
       fetchPaymentsGo m (r :: rest) acc reqs = .error (r.status, r.body)) ∧
    (∀ (m : Nat) (r : Resp) (rest : List Resp) (startPos : Nat) (acc : List Py) (reqs : Nat),
       startPos ≤ 1000 → r.status ≠ 200 →
       fetchInvoicesGo m (r :: rest) startPos acc reqs = .error (r.status, r.body)) := by
  refine ⟨?_, ?_, ?_, ?_, ?_⟩
  · intro m r rest acc reqs hst
    rw [fetchPagesGo, if_pos hst]
  · intro m resp hok
    induction resp with
    | nil => exact fun acc reqs => ⟨_, rfl⟩
    | cons r rest ih =>
      intro acc reqs
      rw [fetchPagesGo, if_neg (by simp [hok r (by simp)])]
      by_cases hlen : r.records.length < m
      · rw [if_pos hlen]
        exact ⟨_, rfl⟩
      · rw [if_neg hlen]
        exact ih (fun r2 hr2 => hok r2 (by simp [hr2])) _ _
  · intro m r rest acc reqs h401
    rw [fetchPaymentsGo, if_pos h401]
  · intro m r rest acc reqs hst h401
    rw [fetchPaymentsGo, if_neg h401, if_pos hst]
  · intro m r rest startPos acc reqs hsp hst
    rw [fetchInvoicesGo, if_neg (by omega)]
    rw [if_pos hst]

/-- C7 witness at concrete inputs: a 500 fails with its status and body in
every fetcher variant, a 401 in the payments fetcher fails with the fixed
unauthorized message and not the response body, and an all-200 run
succeeds. -/
theorem C7_witness :
    fetchPagesGo 1000 [⟨500, S "oops", []⟩] [] 0 = .error (500, S "oops") ∧
    (fetchPagesGo 3 [⟨200, [], []⟩] [] 0).isOk = true ∧
    fetchPaymentsGo 9 [⟨401, S "the response body", []⟩] [] 0 =
      .error (401, S "Unauthorized API Call.") ∧
    fetchPaymentsGo 9 [⟨500, S "oops", []⟩] [] 0 = .error (500, S "oops") ∧
    fetchInvoicesGo 9 [⟨500, S "oops", []⟩] 1 [] 0 = .error (500, S "oops") := by
  refine ⟨?_, ?_, ?_, ?_, ?_⟩
  · exact C7_non200_failure.1 1000 ⟨500, S "oops", []⟩ [] [] 0 (by norm_num)
  · obtain ⟨p, hp⟩ := C7_non200_failure.2.1 3 [⟨200, [], []⟩] (by
      intro r hr
      simp only [List.mem_singleton] at hr
      rw [hr]) [] 0
    rw [hp]
    rfl
  · exact C7_non200_failure.2.2.1 9 ⟨401, S "the response body", []⟩ [] [] 0 rfl
  · exact C7_non200_failure.2.2.2.1 9 ⟨500, S "oops", []⟩ [] [] 0 (by norm_num) (by norm_num)
  · exact C7_non200_failure.2.2.2.2 9 ⟨500, S "oops", []⟩ [] 1 [] 0 (by norm_num) (by norm_num)

/-- C1 counterexample: in qbo_api_wahssales_PROD.py the all-empty
assembled table has columns ending in line_amount and lacking quantity and
sales_price, while assembling a nonempty filtered set yields the
total_amount schema — the column set is not fixed across the two cases. -/
theorem C1_counterexample :
    (PROD.df_payments_final emptyPROD emptyPROD).map (fun d => d.cols) =
      some [S "transaction_id", S "customer_name", S "transaction_date",
            S "product_name", S "line_amount", S "transaction_type"] ∧
    (PROD.df_payments_final sampleFiltered9 emptyPROD).map (fun d => d.cols) =
      some [S "transaction_id", S "customer_name", S "transaction_date",
            S "product_name", S "transaction_type", S "quantity", S "sales_price",
            S "total_amount"] ∧
    ([S "transaction_id", S "customer_name", S "transaction_date",
      S "product_name", S "line_amount", S "transaction_type"] : List PyStr) ≠
      [S "transaction_id", S "customer_name", S "transaction_date",
       S "product_name", S "transaction_type", S "quantity", S "sales_price",
       S "total_amount"] := by
  refine ⟨by decide, by decide, by decide⟩

/-- C1 amended: assembling when every filtered set is empty always
succeeds with a zero-row table of a fixed column list, and assembling
nonempty filtered sets (with the schema the nonempty filter path
produces) always succeeds with a fixed column list; but the two lists
differ — in the main.py variant by the order of transaction_type and
total_amount, in the PROD variant also by line_amount versus total_amount
and the missing quantity and sales_price columns. -/
theorem C1_assemble_schema :
    (∀ dfR dfI : DataFrame, dfR.rows = [] → dfI.rows = [] →
       WahsMain.df_payments_final dfR dfI =
         some ⟨[S "transaction_id", S "customer_name", S "transaction_date",
                S "product_name", S "total_amount", S "transaction_type"], []⟩) ∧
    (∀ dfR dfI : DataFrame,
       (dfR.rows ≠ [] → dfR.cols = WahsMain.EMPTY_COLS) →
       (dfI.rows ≠ [] → dfI.cols = WahsMain.EMPTY_COLS) →
       (dfR.rows ≠ [] ∨ dfI.rows ≠ []) →
       ∃ out, WahsMain.df_payments_final dfR dfI = some out ∧
         out.cols = [S "transaction_id", S "customer_name", S "transaction_date",
           S "product_name", S "transaction_type", S "total_amount"]) ∧
    (∀ dfR dfI : DataFrame, dfR.rows = [] → dfI.rows = [] →
       PROD.df_payments_final dfR dfI =
         some ⟨[S "transaction_id", S "customer_name", S "transaction_date",
                S "product_name", S "line_amount", S "transaction_type"], []⟩) ∧
    (∀ dfR dfI : DataFrame,
       (dfR.rows ≠ [] → dfR.cols = PROD.FINAL_COLS) →
       (dfI.rows ≠ [] → dfI.cols = PROD.FINAL_COLS) →
       (dfR.rows ≠ [] ∨ dfI.rows ≠ []) →
       ∃ out, PROD.df_payments_final dfR dfI = some out ∧
         out.cols = [S "transaction_id", S "customer_name", S "transaction_date",
           S "product_name", S "transaction_type", S "quantity", S "sales_price",
           S "total_amount"]) :=
  ⟨main_df_payments_final_all_empty, main_df_payments_final_nonempty,
   prod_df_payments_final_all_empty, prod_df_payments_final_nonempty⟩

/-- C1 witness at concrete inputs: the empty-empty assembly yields the
zero-row fixed-schema table, and assembling one nonempty PROD filtered
frame succeeds with the nonempty schema. -/
theorem C1_witness :
    WahsMain.df_payments_final emptyMain emptyMain =
      some ⟨[S "transaction_id", S "customer_name", S "transaction_date",
             S "product_name", S "total_amount", S "transaction_type"], []⟩ ∧
    (∃ out, PROD.df_payments_final sampleFiltered9 emptyPROD = some out ∧
       out.cols = [S "transaction_id", S "customer_name", S "transaction_date",
         S "product_name", S "transaction_type", S "quantity", S "sales_price",
         S "total_amount"]) :=
  ⟨C1_assemble_schema.1 emptyMain emptyMain rfl rfl,
   C1_assemble_schema.2.2.2 sampleFiltered9 emptyPROD (fun _ => rfl)
     (fun h => absurd rfl h) (Or.inl (by decide))⟩

/-- C3: flattening produces exactly the sum over records of
max(1, length of the Line array) rows; every produced row inherits the
header-derived customer name, transaction date and every other header
field of its source record; and a row exploded from an empty or missing
Line array has null item name, quantity and sales price (in the main.py
variant, null item name). -/
theorem C3_flatten_row_count (df : DataFrame) (hWF : df.WF)
    (hCR : S "CustomerRef" ∈ df.cols) (hTD : S "TxnDate" ∈ df.cols)
    (hL : S "Line" ∈ df.cols)
    (hcn : S "customer_name" ∉ df.cols) (htd : S "transaction_date" ∉ df.cols)
    (hinr : S "item_name_raw" ∉ df.cols) (hlow : S "item_name_lower" ∉ df.cols)
    (hq : S "quantity" ∉ df.cols) (hsp : S "sales_price" ∉ df.cols) :
    (∀ post dfl, PROD.flattenStage df = some (post, dfl) →
       dfl.rows.length = (df.rows.map (fun r => max 1 (pyLen (rowGet r (S "Line"))))).sum ∧
       (∀ r2 ∈ dfl.rows, ∃ r ∈ df.rows,
          rowGet r2 (S "customer_name") = customerNameOf (rowGet r (S "CustomerRef")) ∧
          rowGet r2 (S "transaction_date") = toDatetimeCoerce (rowGet r (S "TxnDate")) ∧
          ∀ c ∈ df.cols, c ≠ S "Line" → rowGet r2 c = rowGet r c) ∧
       (∀ r2 ∈ dfl.rows, rowGet r2 (S "Line") = Py.none →
          rowGet r2 (S "item_name_raw") = Py.none ∧
          rowGet r2 (S "quantity") = Py.none ∧
          rowGet r2 (S "sales_price") = Py.none)) ∧
    (∀ post dfl, WahsMain.flattenStage df = some (post, dfl) →
       dfl.rows.length = (df.rows.map (fun r => max 1 (pyLen (rowGet r (S "Line"))))).sum ∧
       ∀ r2 ∈ dfl.rows, rowGet r2 (S "Line") = Py.none →
         rowGet r2 (S "item_name_raw") = Py.none) := by
  constructor
  · intro post dfl heq
    obtain ⟨hpc, hpl, hcnt, hchar⟩ :=
      prod_flattenStage_char df hWF hCR hTD hL hcn htd hinr hlow hq hsp post dfl heq
    refine ⟨hcnt, ?_, ?_⟩
    · intro r2 hr2
      obtain ⟨r, hr, x, hx, hxL, hxcn, hxtd, hxinr, hxlow, hxq, hxsp, hoth⟩ := hchar r2 hr2
      exact ⟨r, hr, hxcn, hxtd, hoth⟩
    · intro r2 hr2 hnull
      obtain ⟨r, hr, x, hx, hxL, hxcn, hxtd, hxinr, hxlow, hxq, hxsp, hoth⟩ := hchar r2 hr2
      rw [hnull] at hxL
      rw [hxinr, hxq, hxsp, ← hxL]
      exact ⟨rfl, rfl, rfl⟩
  · intro post dfl heq
    obtain ⟨hpc, hpl, hcols, hcnt, hchar⟩ :=
      main_flattenStage_char df hWF hCR hTD hL hcn htd hinr post dfl heq
    refine ⟨hcnt, ?_⟩
    intro r2 hr2 hnull
    obtain ⟨r, hr, x, hx, hxL, hxcn, hxtd, hxinr, hxkeys, hoth⟩ := hchar r2 hr2
    rw [hnull] at hxL
    rw [hxinr, ← hxL]
    rfl

/-- C3 witness: on a concrete tagged frame holding one record with a
single line and one record with an empty Line array, the flatten stage
produces exactly the documented number of rows (two). -/
theorem C3_witness :
    (PROD.flattenStage sampleDFBad).map (fun p => p.2.rows.length) =
      some ((sampleDFBad.rows.map (fun r => max 1 (pyLen (rowGet r (S "Line"))))).sum) ∧
    ((sampleDFBad.rows.map (fun r => max 1 (pyLen (rowGet r (S "Line"))))).sum = 2) := by
  refine ⟨?_, by decide⟩
  rcases hfs : PROD.flattenStage sampleDFBad with _ | ⟨post, dfl⟩
  · exact absurd hfs (by decide)
  · rw [Option.map_some']
    exact congrArg some
      ((C3_flatten_row_count sampleDFBad
        (show ∀ r ∈ sampleDFBad.rows, rowKeys r = sampleDFBad.cols by decide)
        (by decide) (by decide) (by decide)
        (by decide) (by decide) (by decide) (by decide) (by decide) (by decide)).1
        post dfl hfs).1

/-- C4: every row the product filter returns has a normalized item name
exactly equal to the normalized target (the comparison is exact string
equality after normalization), in both pipeline variants; the documented
scenario holds: the padded raw name normalizes equal to the target while
the comma-less name does not. -/
theorem C4_filter_exact (df : DataFrame) (target : PyStr) (hWF : df.WF)
    (hCR : S "CustomerRef" ∈ df.cols) (hTD : S "TxnDate" ∈ df.cols)
    (hL : S "Line" ∈ df.cols)
    (hcn : S "customer_name" ∉ df.cols) (htd : S "transaction_date" ∉ df.cols)
    (hinr : S "item_name_raw" ∉ df.cols) (hlow : S "item_name_lower" ∉ df.cols)
    (hq : S "quantity" ∉ df.cols) (hsp : S "sales_price" ∉ df.cols) :
    (∀ post res, PROD.process_and_filter_df df (PROD.clean_and_lower (Py.str target)) =
        some (post, res) →
       ∀ r2 ∈ res.rows, PROD.clean_and_lower (rowGet r2 (S "item_name_raw")) =
         PROD.clean_and_lower (Py.str target)) ∧
    (∀ post res, WahsMain.process_and_filter_df df target = some (post, res) →
       ∀ r2 ∈ res.rows, pyNormalize (pyStrConv (rowGet r2 (S "item_name_raw"))) =
         pyNormalize target) ∧
    PROD.clean_and_lower (Py.str (S "  Products:We Are,   HIPAA Smart\n")) =
      PROD.clean_and_lower (Py.str (S "Products:We Are, HIPAA Smart")) ∧
    PROD.clean_and_lower (Py.str (S "Products:We Are HIPAA Smart")) ≠
      PROD.clean_and_lower (Py.str (S "Products:We Are, HIPAA Smart")) := by
  refine ⟨?_, ?_, by decide, by decide⟩
  · intro post res heq
    exact prod_process_output_char df _ hWF hCR hTD hL hcn htd hinr hlow hq hsp post res heq
  · intro post res heq
    exact main_process_output_char df target hWF hCR hTD hL hcn htd hinr hlow post res heq

/-- C4 witness: on a concrete invoice frame and the deployed target of
the main.py variant, every returned row (there is exactly one) has a
normalized item name equal to the normalized target. -/
theorem C4_witness :
    (WahsMain.process_and_filter_df sampleDFMain (S "Products:We Are HIPAA Smart")).map
        (fun p => p.2.rows.all (fun r =>
          pyNormalize (pyStrConv (rowGet r (S "item_name_raw"))) ==
            pyNormalize (S "Products:We Are HIPAA Smart"))) = some true ∧
    (WahsMain.process_and_filter_df sampleDFMain (S "Products:We Are HIPAA Smart")).map
        (fun p => p.2.rows.length) = some 1 := by
  refine ⟨?_, by decide⟩
  rcases heq : WahsMain.process_and_filter_df sampleDFMain (S "Products:We Are HIPAA Smart")
    with _ | ⟨post, res⟩
  · exact absurd heq (by decide)
  · rw [Option.map_some', Option.some.injEq, List.all_eq_true]
    intro r2 hr2
    rw [beq_iff_eq]
    exact (C4_filter_exact sampleDFMain (S "Products:We Are HIPAA Smart")
      (show ∀ r ∈ sampleDFMain.rows, rowKeys r = sampleDFMain.cols by decide)
      (by decide) (by decide) (by decide) (by decide) (by decide) (by decide) (by decide)
      (by decide) (by decide)).2.1 post res heq r2 hr2

/-- C5: per-field coercion failure degrades to null and never propagates:
a malformed transaction date and non-numeric amount, quantity and price
values coerce to null; the flatten stage always completes on any frame
holding the needed columns; every produced row carries the coerced (or
null) date of its record; and the final assembly of a frame with
non-numeric amount fields completes normally with null numeric values. -/
theorem C5_coercion_to_null (df : DataFrame) (hWF : df.WF)
    (hCR : S "CustomerRef" ∈ df.cols) (hTD : S "TxnDate" ∈ df.cols)
    (hL : S "Line" ∈ df.cols)
    (hcn : S "customer_name" ∉ df.cols) (htd : S "transaction_date" ∉ df.cols)
    (hinr : S "item_name_raw" ∉ df.cols) (hlow : S "item_name_lower" ∉ df.cols)
    (hq : S "quantity" ∉ df.cols) (hsp : S "sales_price" ∉ df.cols) :
    toDatetimeCoerce (Py.str (S "not-a-date")) = Py.none ∧
    toNumericCoerce (Py.str (S "abc")) = Py.none ∧
    toNumericCoerce Py.none = Py.none ∧
    (∃ pr, PROD.flattenStage df = some pr) ∧
    (∀ post dfl, PROD.flattenStage df = some (post, dfl) →
       ∀ r2 ∈ dfl.rows, ∃ r ∈ df.rows,
         rowGet r2 (S "transaction_date") = toDatetimeCoerce (rowGet r (S "TxnDate"))) ∧
    (PROD.df_payments_final sampleFiltered9 emptyPROD).map
        (fun d => d.rows.map (fun r => (rowGet r (S "total_amount"), rowGet r (S "quantity"),
          rowGet r (S "sales_price")))) = some [(Py.none, Py.none, Py.none)] := by
  refine ⟨by decide, by decide, by decide, prod_flattenStage_isSome df hCR hTD hL, ?_, by decide⟩
  intro post dfl heq r2 hr2
  obtain ⟨hpc, hpl, hcnt, hchar⟩ :=
    prod_flattenStage_char df hWF hCR hTD hL hcn htd hinr hlow hq hsp post dfl heq
  obtain ⟨r, hr, x, hx, hxL, hxcn, hxtd, hxinr, hxlow, hxq, hxsp, hoth⟩ := hchar r2 hr2
  exact ⟨r, hr, hxtd⟩

/-- C5 witness: the flatten stage completes on a concrete frame holding a
record with a malformed date, and the resulting rows carry the coerced
date and null respectively. -/
theorem C5_witness :
    (PROD.flattenStage sampleDFBad).isSome = true ∧
    (PROD.flattenStage sampleDFBad).map
        (fun p => p.2.rows.map (fun r => rowGet r (S "transaction_date"))) =
      some [Py.date 2024 2 2, Py.none] := by
  refine ⟨?_, by decide⟩
  obtain ⟨pr, hpr⟩ := (C5_coercion_to_null sampleDFBad
    (show ∀ r ∈ sampleDFBad.rows, rowKeys r = sampleDFBad.cols by decide)
    (by decide) (by decide) (by decide) (by decide) (by decide) (by decide) (by decide)
    (by decide) (by decide)).2.2.2.1
  rw [hpr]
  rfl

/-- C6 counterexample: in the main.py variant a null raw item name is
forced to the string None and normalizes to the literal none, so with
target string none the filter keeps a row whose raw item name is null —
the claim that a null name never matches any target fails. -/
theorem C6_counterexample :
    (WahsMain.process_and_filter_df sampleDFNull (S "none")).map
        (fun p => p.2.rows.map (fun r => rowGet r (S "item_name_raw"))) =
      some [Py.none] := by
  decide

/-- C6 amended: a row with a null raw item name is excluded whenever the
normalized target differs from the normalization of a null name — the
empty string in the PROD variant and the literal none string in the
main.py variant; the deployed target products satisfy both conditions. -/
theorem C6_null_name_excluded (df : DataFrame) (tc target : PyStr) (hWF : df.WF)
    (hCR : S "CustomerRef" ∈ df.cols) (hTD : S "TxnDate" ∈ df.cols)
    (hL : S "Line" ∈ df.cols)
    (hcn : S "customer_name" ∉ df.cols) (htd : S "transaction_date" ∉ df.cols)
    (hinr : S "item_name_raw" ∉ df.cols) (hlow : S "item_name_lower" ∉ df.cols)
    (hq : S "quantity" ∉ df.cols) (hsp : S "sales_price" ∉ df.cols) :
    (∀ post res, PROD.process_and_filter_df df tc = some (post, res) → tc ≠ [] →
       ∀ r2 ∈ res.rows, rowGet r2 (S "item_name_raw") ≠ Py.none) ∧
    (∀ post res, WahsMain.process_and_filter_df df target = some (post, res) →
       pyNormalize target ≠ S "none" →
       ∀ r2 ∈ res.rows, rowGet r2 (S "item_name_raw") ≠ Py.none) ∧
    PROD.clean_and_lower (Py.str (S "Products:We Are, HIPAA Smart")) ≠ ([] : PyStr) ∧
    pyNormalize (S "Products:We Are HIPAA Smart") ≠ S "none" := by
  refine ⟨?_, ?_, by decide, by decide⟩
  · intro post res heq hne r2 hr2 hnull
    have hval := prod_process_output_char df tc hWF hCR hTD hL hcn htd hinr hlow hq hsp
      post res heq r2 hr2
    rw [hnull] at hval
    have htc : tc = [] := by rw [← hval]; rfl
    exact hne htc
  · intro post res heq hne r2 hr2 hnull
    have hval := main_process_output_char df target hWF hCR hTD hL hcn htd hinr hlow
      post res heq r2 hr2
    rw [hnull] at hval
    exact hne (by rw [← hval]; rfl)

/-- C6 witness: on a concrete frame and the deployed PROD target, every
returned row (there is one) has a non-null raw item name. -/
theorem C6_witness :
    (PROD.process_and_filter_df sampleDF
        (PROD.clean_and_lower (Py.str (S "Products:We Are, HIPAA Smart")))).map
        (fun p => p.2.rows.all (fun r => !(rowGet r (S "item_name_raw") == Py.none))) =
      some true ∧
    (PROD.process_and_filter_df sampleDF
        (PROD.clean_and_lower (Py.str (S "Products:We Are, HIPAA Smart")))).map
        (fun p => p.2.rows.length) = some 1 := by
  refine ⟨?_, by decide⟩
  rcases heq : PROD.process_and_filter_df sampleDF
      (PROD.clean_and_lower (Py.str (S "Products:We Are, HIPAA Smart"))) with _ | ⟨post, res⟩
  · exact absurd heq (by decide)
  · rw [Option.map_some', Option.some.injEq, List.all_eq_true]
    intro r2 hr2
    rw [Bool.not_eq_eq_eq_not, Bool.not_true, beq_eq_false_iff_ne]
    exact (C6_null_name_excluded sampleDF
      (PROD.clean_and_lower (Py.str (S "Products:We Are, HIPAA Smart")))
      (S "Products:We Are, HIPAA Smart")
      (show ∀ r ∈ sampleDF.rows, rowKeys r = sampleDF.cols by decide)
      (by decide) (by decide) (by decide) (by decide) (by decide) (by decide) (by decide)
      (by decide) (by decide)).1 post res heq (by decide) r2 hr2

/-- C10: on a nonempty raw frame, process_and_filter_df writes the
derived customer_name and transaction_date columns into the caller
supplied frame in place, so the frame the caller holds after the call has
gained exactly those two columns and is not the frame it passed in — in
both pipeline variants. -/
theorem C10_in_place_mutation (df : DataFrame) (tc target : PyStr) (hWF : df.WF)
    (hCR : S "CustomerRef" ∈ df.cols) (hTD : S "TxnDate" ∈ df.cols)
    (hL : S "Line" ∈ df.cols)
    (hcn : S "customer_name" ∉ df.cols) (htd : S "transaction_date" ∉ df.cols)
    (hinr : S "item_name_raw" ∉ df.cols) (hlow : S "item_name_lower" ∉ df.cols)
    (hq : S "quantity" ∉ df.cols) (hsp : S "sales_price" ∉ df.cols)
    (hne : df.rows ≠ []) :
    (∀ post res, PROD.process_and_filter_df df tc = some (post, res) →
       post.cols = df.cols ++ [S "customer_name", S "transaction_date"] ∧ post ≠ df) ∧
    (∀ post res, WahsMain.process_and_filter_df df target = some (post, res) →
       post.cols = df.cols ++ [S "customer_name", S "transaction_date"] ∧ post ≠ df) := by
  constructor
  · intro post res heq
    have hpc := prod_process_post df tc hWF hCR hTD hL hcn htd hinr hlow hq hsp hne
      post res heq
    refine ⟨hpc, ?_⟩
    intro he
    rw [he] at hpc
    have := congrArg List.length hpc
    simp at this
  · intro post res heq
    have hpc := main_process_post df target hWF hCR hTD hL hcn htd hinr hne
      post res heq
    refine ⟨hpc, ?_⟩
    intro he
    rw [he] at hpc
    have := congrArg List.length hpc
    simp at this

/-- C10 witness: on a concrete raw frame the callers frame after the call
has gained the two derived columns and differs from the input frame. -/
theorem C10_witness :
    (PROD.process_and_filter_df sampleDF
        (PROD.clean_and_lower (Py.str (S "Products:We Are, HIPAA Smart")))).map
        (fun p => p.1.cols) =
      some (sampleDF.cols ++ [S "customer_name", S "transaction_date"]) ∧
    (PROD.process_and_filter_df sampleDF
        (PROD.clean_and_lower (Py.str (S "Products:We Are, HIPAA Smart")))).map
        (fun p => p.1) ≠ some sampleDF := by
  rcases heq : PROD.process_and_filter_df sampleDF
      (PROD.clean_and_lower (Py.str (S "Products:We Are, HIPAA Smart"))) with _ | ⟨post, res⟩
  · exact absurd heq (by decide)
  · have hthm := (C10_in_place_mutation sampleDF
      (PROD.clean_and_lower (Py.str (S "Products:We Are, HIPAA Smart")))
      (S "whatever")
      (show ∀ r ∈ sampleDF.rows, rowKeys r = sampleDF.cols by decide)
      (by decide) (by decide) (by decide) (by decide) (by decide) (by decide) (by decide)
      (by decide) (by decide) (by decide)).1 post res heq
    constructor
    · rw [Option.map_some']
      exact congrArg some hthm.1
    · rw [Option.map_some']
      intro h
      rw [Option.some.injEq] at h
      exact hthm.2 h
